import Mathlib

/-!
Verification development for the petroflow decline-curve-analysis (DCA) engine
(`backend/app/engine/dca/`).

Modelling conventions (shallow embedding):
* Python/NumPy floating-point values are modelled as exact rationals (`ℚ`).
* Transcendental operations (`np.exp`, `np.log`, `np.power`, `np.sqrt`,
  `scipy.special.gamma`, `scipy.special.gammainc`) have no exact rational
  counterpart; they are abstracted as an explicit `AnalyticOps` record of
  unspecified total functions, threaded through every definition that uses
  them.  None of these NumPy calls can raise, so totality is faithful.
* A Python expression that can raise an exception is modelled in the
  `Except String` monad.  Division of two plain Python floats raises
  `ZeroDivisionError` on a zero divisor, so such scalar divisions are guarded;
  NumPy array divisions never raise (they produce `inf`/`nan` with a warning),
  so those are modelled with total rational division (junk value `0` at a zero
  divisor stands in for the unrepresentable `inf`/`nan`).
* NumPy's elementwise evaluation of a rate/cumulative function over a time
  array is modelled as a monadic map (`mapE`) of the per-scalar function.
* `np.random` draws are abstracted by an oracle `draw : Nat → ℚ` together with
  an explicit counter for the number of draws consumed, mirroring the global
  RNG state that advances once per `np.random.*` call; the arithmetic a
  sampler performs on its configuration before drawing cannot raise (all its
  divisors are floored to positive values) and is absorbed into the oracle.
* `scipy.optimize.curve_fit` / `differential_evolution` are not embeddable;
  the whole local-solve/global-fallback chain of `DCAFitter.fit`
  (fitting.py lines 151-171) is abstracted as an `OptOracle` parameter whose
  `.error` outcome corresponds to the chain ending in the
  "Optimization failed" branch and whose `.ok` outcome supplies `popt, pcov`.
-/

/-- Abstracted transcendental operations (see module docstring). -/
structure AnalyticOps where
  exp : ℚ → ℚ
  log : ℚ → ℚ
  rpow : ℚ → ℚ → ℚ
  sqrt : ℚ → ℚ
  gammaFn : ℚ → ℚ
  gammainc : ℚ → ℚ → ℚ

/-- A concrete instantiation of the abstract operations, used to evaluate the
theorems on closed inputs. -/
def constOps : AnalyticOps :=
  { exp := fun _ => 1, log := fun _ => 0, rpow := fun _ _ => 1,
    sqrt := fun _ => 0, gammaFn := fun _ => 1, gammainc := fun _ _ => 1 }

/-- Parameter dictionaries (`dict[str, float]` in the source). -/
abbrev ParamDict := List (String × ℚ)

/-- Monadic map over a list in the `Except` monad: the embedding of a NumPy
elementwise array operation that may raise. -/
def mapE {α β : Type} (f : α → Except String β) : List α → Except String (List β)
  | [] => .ok []
  | x :: xs =>
    match f x with
    | .error e => .error e
    | .ok y =>
      match mapE f xs with
      | .error e => .error e
      | .ok ys => .ok (y :: ys)

/-- True iff an `Except` value is a success (the Python call returned instead
of raising). -/
def isOkE {α : Type} : Except String α → Bool
  | .ok _ => true
  | .error _ => false

/-! ## arps.py -/

/-- arps.py `exponential_rate`: `qi * np.exp(-di * t)` (cannot raise). -/
def exponential_rate (ops : AnalyticOps) (t qi di : ℚ) : ℚ :=
  qi * ops.exp (-di * t)

/-- arps.py `exponential_cumulative`: `(qi / di) * (1.0 - np.exp(-di * t))`.
`qi / di` is a plain-float division: it raises `ZeroDivisionError` at
`di = 0`. -/
def exponential_cumulative (ops : AnalyticOps) (t qi di : ℚ) : Except String ℚ :=
  if di = 0 then .error "ZeroDivisionError: float division by zero"
  else .ok ((qi / di) * (1 - ops.exp (-di * t)))

/-- arps.py `hyperbolic_rate`: `qi / np.power(1.0 + b*di*t, 1.0/b)`.
`1.0 / b` is a plain-float division raising at `b = 0`; the outer division is
an array op (never raises). -/
def hyperbolic_rate (ops : AnalyticOps) (t qi di b : ℚ) : Except String ℚ :=
  if b = 0 then .error "ZeroDivisionError: float division by zero"
  else .ok (qi / ops.rpow (1 + b * di * t) (1 / b))

/-- arps.py `hyperbolic_cumulative`: computes `q_t = hyperbolic_rate t` first,
then returns the harmonic logarithmic limit when `|b - 1| < 1e-10`, otherwise
the closed form; the closed form's division has a NumPy float numerator
(`np.power(qi, b)`) so it never raises. -/
def hyperbolic_cumulative (ops : AnalyticOps) (t qi di b : ℚ) : Except String ℚ :=
  match hyperbolic_rate ops t qi di b with
  | .error e => .error e
  | .ok q_t =>
    if |b - 1| < 1 / 10 ^ 10 then
      if di = 0 then .error "ZeroDivisionError: float division by zero"
      else .ok ((qi / di) * ops.log (1 + di * t))
    else
      .ok ((ops.rpow qi b / ((1 - b) * di)) * (ops.rpow qi (1 - b) - ops.rpow q_t (1 - b)))

/-- arps.py `harmonic_rate`: `qi / (1.0 + di * t)` — array division, never
raises. -/
def harmonic_rate (t qi di : ℚ) : ℚ :=
  qi / (1 + di * t)

/-- arps.py `harmonic_cumulative`: `(qi / di) * np.log(1.0 + di * t)`;
`qi / di` is a plain-float division raising at `di = 0`. -/
def harmonic_cumulative (ops : AnalyticOps) (t qi di : ℚ) : Except String ℚ :=
  if di = 0 then .error "ZeroDivisionError: float division by zero"
  else .ok ((qi / di) * ops.log (1 + di * t))

/-! ## duong.py -/

/-- duong.py `duong_rate`: clamps `t` to the floor `1e-10`
(`np.maximum(t, 1e-10)`), then
`qi * t_safe^(-m) * exp((a/(1-m)) * (t_safe^(1-m) - 1))`.
`a / (1.0 - m)` is a plain-float division raising at `m = 1`. -/
def duong_rate (ops : AnalyticOps) (t qi a m : ℚ) : Except String ℚ :=
  let t_safe := max t (1 / 10 ^ 10)
  if m = 1 then .error "ZeroDivisionError: float division by zero"
  else
    .ok (qi * ops.rpow t_safe (-m) *
      ops.exp ((a / (1 - m)) * (ops.rpow t_safe (1 - m) - 1)))

/-- duong.py `duong_cumulative`: `q_t * t_safe / a` using the same clamped
time; the division is an array op, never raises. -/
def duong_cumulative (ops : AnalyticOps) (t qi a m : ℚ) : Except String ℚ :=
  match duong_rate ops t qi a m with
  | .error e => .error e
  | .ok q_t =>
    let t_safe := max t (1 / 10 ^ 10)
    .ok (q_t * t_safe / a)

/-! ## sedm.py -/

/-- sedm.py `sedm_rate`: `qi * np.exp(-np.power(t / tau, n))` — array ops
only, never raises. -/
def sedm_rate (ops : AnalyticOps) (t qi tau n : ℚ) : ℚ :=
  qi * ops.exp (-(ops.rpow (t / tau) n))

/-- sedm.py `sedm_cumulative`: `(qi * tau / n) * gamma(1/n) * gammainc(1/n,
(t/tau)^n)`; `qi * tau / n` and `1.0 / n` are plain-float divisions raising at
`n = 0`. -/
def sedm_cumulative (ops : AnalyticOps) (t qi tau n : ℚ) : Except String ℚ :=
  if n = 0 then .error "ZeroDivisionError: float division by zero"
  else
    .ok ((qi * tau / n) * ops.gammaFn (1 / n) *
      ops.gammainc (1 / n) (ops.rpow (t / tau) n))

/-! ## modified_hyp.py -/

/-- modified_hyp.py `modified_hyperbolic_rate`: pure exponential when
`d_min >= di`; otherwise hyperbolic until `t_switch`, exponential tail after.
`(di - d_min) / (b * di * d_min)` is a plain-float division raising when the
denominator is zero. -/
def modified_hyperbolic_rate (ops : AnalyticOps) (t qi di b d_min : ℚ) :
    Except String ℚ :=
  if d_min ≥ di then .ok (qi * ops.exp (-d_min * t))
  else if b * di * d_min = 0 then .error "ZeroDivisionError: float division by zero"
  else
    let t_switch := (di - d_min) / (b * di * d_min)
    match hyperbolic_rate ops t_switch qi di b with
    | .error e => .error e
    | .ok q_switch =>
      if t ≤ t_switch then hyperbolic_rate ops t qi di b
      else .ok (q_switch * ops.exp (-d_min * (t - t_switch)))

/-- modified_hyp.py `modified_hyperbolic_cumulative`: mirrors the rate's
phase split; `qi / d_min` in the pure-exponential branch is a plain-float
division raising at `d_min = 0`; `q_switch / d_min` in the tail has a NumPy
float numerator and never raises. -/
def modified_hyperbolic_cumulative (ops : AnalyticOps) (t qi di b d_min : ℚ) :
    Except String ℚ :=
  if d_min ≥ di then
    if d_min = 0 then .error "ZeroDivisionError: float division by zero"
    else .ok ((qi / d_min) * (1 - ops.exp (-d_min * t)))
  else if b * di * d_min = 0 then .error "ZeroDivisionError: float division by zero"
  else
    let t_switch := (di - d_min) / (b * di * d_min)
    match hyperbolic_rate ops t_switch qi di b with
    | .error e => .error e
    | .ok q_switch =>
      match hyperbolic_cumulative ops t_switch qi di b with
      | .error e => .error e
      | .ok cum_at_switch =>
        if t ≤ t_switch then hyperbolic_cumulative ops t qi di b
        else .ok (cum_at_switch + (q_switch / d_min) * (1 - ops.exp (-d_min * (t - t_switch))))

/-! ## forecasting.py -/

/-- The six known model types, in the insertion order shared by
`RATE_FUNCTIONS` / `CUMULATIVE_FUNCTIONS` (forecasting.py), `DCAFitter.BOUNDS`
(fitting.py) and `_extract_params`'s `param_order`. -/
def modelTypes : List String :=
  ["exponential", "hyperbolic", "harmonic", "modified_hyperbolic", "sedm", "duong"]

/-- forecasting.py `RATE_FUNCTIONS[model_type](t, *param_values)`: dispatch of
the per-scalar rate laws; an arity mismatch between `param_values` and the
model function is a Python `TypeError`. -/
def rateFun (ops : AnalyticOps) (model_type : String) (param_values : List ℚ)
    (t : ℚ) : Except String ℚ :=
  match model_type, param_values with
  | "exponential", [qi, di] => .ok (exponential_rate ops t qi di)
  | "hyperbolic", [qi, di, b] => hyperbolic_rate ops t qi di b
  | "harmonic", [qi, di] => .ok (harmonic_rate t qi di)
  | "modified_hyperbolic", [qi, di, b, d_min] => modified_hyperbolic_rate ops t qi di b d_min
  | "sedm", [qi, tau, n] => .ok (sedm_rate ops t qi tau n)
  | "duong", [qi, a, m] => duong_rate ops t qi a m
  | _, _ => .error "TypeError"

/-- forecasting.py `CUMULATIVE_FUNCTIONS[model_type](t, *param_values)`. -/
def cumFun (ops : AnalyticOps) (model_type : String) (param_values : List ℚ)
    (t : ℚ) : Except String ℚ :=
  match model_type, param_values with
  | "exponential", [qi, di] => exponential_cumulative ops t qi di
  | "hyperbolic", [qi, di, b] => hyperbolic_cumulative ops t qi di b
  | "harmonic", [qi, di] => harmonic_cumulative ops t qi di
  | "modified_hyperbolic", [qi, di, b, d_min] => modified_hyperbolic_cumulative ops t qi di b d_min
  | "sedm", [qi, tau, n] => sedm_cumulative ops t qi tau n
  | "duong", [qi, a, m] => duong_cumulative ops t qi a m
  | _, _ => .error "TypeError"

/-- forecasting.py `_extract_params`: the ordered parameter names per model. -/
def PARAM_ORDER : List (String × List String) :=
  [("exponential", ["qi", "di"]),
   ("hyperbolic", ["qi", "di", "b"]),
   ("harmonic", ["qi", "di"]),
   ("modified_hyperbolic", ["qi", "di", "b", "d_min"]),
   ("sedm", ["qi", "tau", "n"]),
   ("duong", ["qi", "a", "m"])]

/-- forecasting.py `_extract_params(model_type, parameters)`: look the model's
ordered names up in the parameter dict; a missing key is a `KeyError`. -/
def extractParams (model_type : String) (parameters : ParamDict) :
    Except String (List ℚ) :=
  match List.lookup model_type PARAM_ORDER with
  | none => .error ("KeyError: " ++ model_type)
  | some names =>
    mapE (fun nm =>
      match List.lookup nm parameters with
      | some v => .ok v
      | none => .error ("KeyError: " ++ nm)) names

/-- `np.arange(start, stop, step)` for a positive rational step: the values
`start + k * step` for `0 ≤ k < ⌈(stop - start) / step⌉`. -/
def arange (start stop step : ℚ) : List ℚ :=
  if 0 < step then
    (List.range (Int.toNat ⌈(stop - start) / step⌉)).map
      (fun k : ℕ => start + (k : ℚ) * step)
  else []

/-- forecasting.py lines 66-71: the forecast time grid
`np.arange(time_step, forecast_months + time_step, time_step)`, clamped to
`≥ 1` elementwise for `duong`. -/
def forecastGrid (model_type : String) (forecast_months time_step : ℚ) : List ℚ :=
  let t0 := arange time_step (forecast_months + time_step) time_step
  if model_type == "duong" then t0.map (fun x => max x 1) else t0

/-- forecasting.py `generate_forecast`'s return record: three parallel lists
`time` / `rate` / `cumulative`. -/
structure ForecastSeries where
  time : List ℚ
  rate : List ℚ
  cumulative : List ℚ
deriving DecidableEq, Repr

/-- forecasting.py `generate_forecast(model_type, parameters, forecast_months,
economic_limit, time_step)`: build the time grid, clamp it to `≥ 1` for
`duong`, evaluate rates and cumulative, truncate at the economic limit, and
convert the cumulative to volume with the fixed 30.4375 days-per-month
factor.  Unknown model types raise `ValueError`. -/
def generate_forecast (ops : AnalyticOps) (model_type : String)
    (parameters : ParamDict) (forecast_months economic_limit time_step : ℚ) :
    Except String ForecastSeries :=
  if modelTypes.contains model_type then
    let t := forecastGrid model_type forecast_months time_step
    match extractParams model_type parameters with
    | .error e => .error e
    | .ok param_values =>
      match mapE (rateFun ops model_type param_values) t with
      | .error e => .error e
      | .ok rates =>
        match mapE (cumFun ops model_type param_values) t with
        | .error e => .error e
        | .ok cumulative =>
          let above_limit := rates.map (fun r => decide (economic_limit ≤ r))
          if above_limit.all (fun x => x) then
            .ok ⟨t, rates, cumulative.map (fun c => c * (30.4375 : ℚ))⟩
          else
            let cutoff_idx := above_limit.findIdx (fun x => !x)
            if 0 < cutoff_idx then
              .ok ⟨t.take cutoff_idx, rates.take cutoff_idx,
                (cumulative.take cutoff_idx).map (fun c => c * (30.4375 : ℚ))⟩
            else .ok ⟨[], [], []⟩
  else .error ("Unknown model type: " ++ model_type)

/-! ## fitting.py -/

/-- Extended rationals with both `-inf` (`⊥`) and `+inf` (`some ⊤`), the values
Python's `float("-inf")` / `float("inf")` take in `FitResult.aic` / `.bic`. -/
abbrev XRat := WithBot (WithTop ℚ)

/-- fitting.py `FitResult`. -/
structure FitResult where
  model_type : String
  parameters : ParamDict
  covariance : List (List ℚ)
  r_squared : ℚ
  rmse : WithTop ℚ
  aic : XRat
  bic : XRat
  residuals : List ℚ
  success : Bool
  message : String
deriving DecidableEq, Repr

/-- Per-model parameter names and bounds rows of `DCAFitter.BOUNDS`. -/
structure BoundsCfg where
  names : List String
  lower : List ℚ
  upper : List ℚ
deriving DecidableEq, Repr

/-- fitting.py `DCAFitter.BOUNDS` (same key order as the source dict). -/
def FIT_BOUNDS : List (String × BoundsCfg) :=
  [("exponential", ⟨["qi", "di"], [1, 1 / 10 ^ 6], [10 ^ 6, 5]⟩),
   ("hyperbolic", ⟨["qi", "di", "b"], [1, 1 / 10 ^ 6, 0.01], [10 ^ 6, 5, 2.5]⟩),
   ("harmonic", ⟨["qi", "di"], [1, 1 / 10 ^ 6], [10 ^ 6, 5]⟩),
   ("modified_hyperbolic", ⟨["qi", "di", "b", "d_min"],
      [1, 1 / 10 ^ 6, 0.01, 1 / 10 ^ 4], [10 ^ 6, 5, 2.5, 0.5]⟩),
   ("sedm", ⟨["qi", "tau", "n"], [1, 0.1, 0.01], [10 ^ 6, 10 ^ 5, 2]⟩),
   ("duong", ⟨["qi", "a", "m"], [0.1, 0.1, 0.5], [10 ^ 6, 10, 3]⟩)]

/-- fitting.py lines 116-118: the validity mask
`np.isfinite(t) & np.isfinite(q) & (q > 0) & (t >= 0)` applied to the zipped
samples.  Rationals are always finite, so the finiteness conjuncts are
vacuous in the embedding. -/
def cleanData (t q : List ℚ) : List (ℚ × ℚ) :=
  (t.zip q).filter (fun p => decide (0 < p.2) && decide (0 ≤ p.1))

/-- fitting.py lines 128-130: for `duong`, when the first cleaned time is
exactly 0, shift the whole cleaned time array by `+1`. -/
def duongShift (model_type : String) (t_clean : List ℚ) : List ℚ :=
  if model_type == "duong" && t_clean.head? == some 0 then t_clean.map (fun x => x + 1)
  else t_clean

/-- Sum of a rational list (`np.sum`). -/
def sumQ (l : List ℚ) : ℚ := l.foldl (fun a b => a + b) 0

/-- Maximum of a rational list (`np.max`; meaningful on nonempty input). -/
def maxQ (l : List ℚ) : ℚ := l.foldl max (l.headD 0)

/-- fitting.py `DCAFitter._r_squared`: `1 - ss_res / ss_tot` with a `0` guard
when `ss_tot ≤ 0`. -/
def DCAFitter.r_squared_metric (y_actual y_predicted : List ℚ) : ℚ :=
  let ss_res := sumQ ((y_actual.zip y_predicted).map (fun p => (p.1 - p.2) ^ 2))
  let mean := sumQ y_actual / y_actual.length
  let ss_tot := sumQ (y_actual.map (fun y => (y - mean) ^ 2))
  if 0 < ss_tot then 1 - ss_res / ss_tot else 0

/-- fitting.py `DCAFitter._get_initial_guess`. -/
def DCAFitter.get_initial_guess (ops : AnalyticOps) (t q : List ℚ)
    (model_type : String) (user_params : Option (List (String × Option ℚ))) :
    ParamDict :=
  let qi_guess := q.headD 0
  let di_guess :=
    if 1 < q.length ∧ 0 < q.getLastD 0 ∧ 0 < qi_guess ∧ t.headD 0 < t.getLastD 0 then
      max (-(ops.log (q.getLastD 0 / qi_guess)) / (t.getLastD 0 - t.headD 0)) (1 / 10 ^ 6)
    else 1 / 20
  let guesses : List (String × ParamDict) :=
    [("exponential", [("qi", qi_guess), ("di", di_guess)]),
     ("hyperbolic", [("qi", qi_guess), ("di", di_guess), ("b", 0.8)]),
     ("harmonic", [("qi", qi_guess), ("di", di_guess)]),
     ("modified_hyperbolic",
        [("qi", qi_guess), ("di", di_guess), ("b", 1), ("d_min", 0.005)]),
     ("sedm", [("qi", qi_guess), ("tau", max (t.getLastD 0 / 2) 1), ("n", 0.5)]),
     ("duong", [("qi", qi_guess), ("a", 1.5), ("m", 1.2)])]
  let guess := (List.lookup model_type guesses).getD []
  match user_params with
  | none => guess
  | some ups =>
    ups.foldl (fun g kv =>
      match kv.2 with
      | none => g
      | some v =>
        if (List.lookup kv.1 g).isSome then
          g.map (fun p => if p.1 == kv.1 then (p.1, v) else p)
        else g) guess

/-- Abstraction of fitting.py lines 151-171: the bounded local solve plus
global-fallback chain.  `.ok (popt, pcov)` is a solver success; `.error e`
is the case where both attempts failed with exception text `e`.  Arguments:
model type, cleaned `t`, cleaned `q`, clamped `p0`, lower bounds, upper
bounds. -/
abbrev OptOracle := String → List ℚ → List ℚ → List ℚ → List ℚ → List ℚ →
  Except String (List ℚ × List (List ℚ))

/-- The `FitResult` produced by every `success=False` early return of
`DCAFitter.fit` (`r_squared=0`, `rmse=aic=bic=inf`, empty payloads). -/
def failFitResult (model_type message : String) : FitResult :=
  { model_type := model_type, parameters := [], covariance := [],
    r_squared := 0, rmse := ⊤, aic := ((⊤ : WithTop ℚ) : XRat),
    bic := ((⊤ : WithTop ℚ) : XRat), residuals := [], success := false,
    message := message }

/-- fitting.py `DCAFitter.fit`.  A `.error` result models an uncaught Python
exception escaping `fit` (possible only in the post-optimization metrics
stage, line 177, which sits outside every `try`). -/
def DCAFitter.fit (ops : AnalyticOps) (opt : OptOracle) (t q : List ℚ)
    (model_type : String) (initial_params : Option (List (String × Option ℚ))) :
    Except String FitResult :=
  match List.lookup model_type FIT_BOUNDS with
  | none => .ok (failFitResult model_type ("Unknown model type: " ++ model_type))
  | some bounds_cfg =>
    let cleaned := cleanData t q
    let t_clean0 := cleaned.map (fun p => p.1)
    let q_clean := cleaned.map (fun p => p.2)
    if t_clean0.length < 3 then
      .ok (failFitResult model_type "Insufficient valid data points (need >= 3)")
    else
      let t_clean := duongShift model_type t_clean0
      let qi_max := max (maxQ q_clean * 3) (bounds_cfg.upper.headD 0)
      let upper := qi_max :: bounds_cfg.upper.tail
      let lower := bounds_cfg.lower
      let p0d := DCAFitter.get_initial_guess ops t_clean q_clean model_type initial_params
      let p0_list := bounds_cfg.names.map (fun nm => (List.lookup nm p0d).getD 0)
      let p0c := (p0_list.zip (lower.zip upper)).map (fun pv => max pv.2.1 (min pv.2.2 pv.1))
      match opt model_type t_clean q_clean p0c lower upper with
      | .error e => .ok (failFitResult model_type ("Optimization failed: " ++ e))
      | .ok (popt, pcov) =>
        match mapE (rateFun ops model_type popt) t_clean with
        | .error e => .error e
        | .ok q_predicted =>
          let residuals := (q_clean.zip q_predicted).map (fun p => p.1 - p.2)
          let n := q_clean.length
          let k := popt.length
          let rss := sumQ (residuals.map (fun r => r ^ 2))
          let aicv : XRat :=
            if 0 < rss ∧ 0 < n then
              ((((n : ℚ) * ops.log (rss / n) + 2 * k : ℚ) : WithTop ℚ) : XRat)
            else ⊥
          let bicv : XRat :=
            if 0 < rss ∧ 0 < n then
              ((((n : ℚ) * ops.log (rss / n) + (k : ℚ) * ops.log n : ℚ) : WithTop ℚ) : XRat)
            else ⊥
          .ok { model_type := model_type,
                parameters := bounds_cfg.names.zip popt,
                covariance := pcov,
                r_squared := DCAFitter.r_squared_metric q_clean q_predicted,
                rmse := ((ops.sqrt (rss / n) : ℚ) : WithTop ℚ),
                aic := aicv, bic := bicv,
                residuals := residuals, success := true,
                message := "Fit converged successfully" }

/-- Comparison key of fitting.py line 214: `sorted(results, key=lambda r:
r.aic)`. -/
def aicLE (a b : FitResult) : Prop := a.aic ≤ b.aic

instance : DecidableRel aicLE := fun a b => inferInstanceAs (Decidable (a.aic ≤ b.aic))

instance : IsTotal FitResult aicLE := ⟨fun a b => le_total a.aic b.aic⟩

instance : IsTrans FitResult aicLE := ⟨fun _ _ _ hab hbc => le_trans hab hbc⟩

/-- fitting.py `DCAFitter.auto_fit`: fit every model in `BOUNDS` order, keep
the successes, and sort ascending by `aic`. -/
def DCAFitter.auto_fit (ops : AnalyticOps) (opt : OptOracle) (t q : List ℚ) :
    Except String (List FitResult) :=
  match mapE (fun m => DCAFitter.fit ops opt t q m none) (FIT_BOUNDS.map (fun p => p.1)) with
  | .error e => .error e
  | .ok results => .ok (List.insertionSort aicLE (results.filter (fun r => r.success)))

/-! ## monte_carlo.py -/

/-- One entry of monte_carlo.py's `param_distributions` dict: the `"type"`
key plus the union of the type-specific numeric fields. -/
structure DistConfig where
  dtype : String
  mean : ℚ
  std : ℚ
  dmin : ℚ
  dmax : ℚ
  mode : ℚ
deriving DecidableEq, Repr

/-- The four distribution types `_sample_parameter` accepts. -/
def knownDist (dt : String) : Bool :=
  dt == "normal" || dt == "lognormal" || dt == "uniform" || dt == "triangular"

/-- monte_carlo.py `MonteCarloEUR._sample_parameter`: each of the four known
branches performs raise-free arithmetic on its config (all divisors floored
positive) and makes exactly one `np.random.*` draw, abstracted here by the
oracle value `u`; an unknown type raises `ValueError` without drawing. -/
def MonteCarloEUR.sample_parameter (cfg : DistConfig) (u : ℚ) : Except String ℚ :=
  if knownDist cfg.dtype then .ok u
  else .error ("Unknown distribution type: " ++ cfg.dtype)

/-- monte_carlo.py lines 80-82: `np.clip(sample, low, high)` when the caller
supplied bounds for this parameter. -/
def clipSample (param_bounds : Option (List (String × ℚ × ℚ))) (nm : String)
    (v : ℚ) : ℚ :=
  match param_bounds with
  | none => v
  | some bs =>
    match List.lookup nm bs with
    | some lh => min (max v lh.1) lh.2
    | none => v

/-- Python dict assignment `params[name] = sample` on an association list. -/
def dictSet (d : ParamDict) (k : String) (v : ℚ) : ParamDict :=
  if d.any (fun p => p.1 == k) then d.map (fun p => if p.1 == k then (k, v) else p)
  else d ++ [(k, v)]

/-- The sampling pass of one Monte Carlo iteration (monte_carlo.py lines
78-84), threading the RNG draw counter.  The counter component survives an
error, mirroring the global NumPy RNG state that stays advanced when the
`ValueError` propagates. -/
def samplePass (param_bounds : Option (List (String × ℚ × ℚ))) (draw : Nat → ℚ) :
    List (String × DistConfig) → Nat → Except String (List (String × ℚ)) × Nat
  | [], c => (.ok [], c)
  | (nm, cfg) :: rest, c =>
    match MonteCarloEUR.sample_parameter cfg (draw c) with
    | .error e => (.error e, c)
    | .ok s0 =>
      let s := clipSample param_bounds nm s0
      match samplePass param_bounds draw rest (c + 1) with
      | (.error e, c2) => (.error e, c2)
      | (.ok tl, c2) => (.ok ((nm, s) :: tl), c2)

/-- The values `samplePass` produces in its success case, as a pure function
of the draw counter (used to state theorems about individual iterations). -/
def sampledAt (param_bounds : Option (List (String × ℚ × ℚ))) (draw : Nat → ℚ) :
    List (String × DistConfig) → Nat → List (String × ℚ)
  | [], _ => []
  | (nm, cfg) :: rest, c =>
    let _ := cfg
    (nm, clipSample param_bounds nm (draw c)) :: sampledAt param_bounds draw rest (c + 1)

/-- The parameter dict one iteration computes: base parameters overridden by
the sampled values (monte_carlo.py lines 77-83). -/
def iterParams (base_parameters : ParamDict)
    (param_distributions : List (String × DistConfig))
    (param_bounds : Option (List (String × ℚ × ℚ))) (draw : Nat → ℚ) (c : Nat) :
    ParamDict :=
  (sampledAt param_bounds draw param_distributions c).foldl
    (fun d p => dictSet d p.1 p.2) base_parameters

/-- monte_carlo.py lines 179-197: the bounded binary search, 60 iterations of
fuel, `continue`-ing past a raising midpoint evaluation and breaking when the
bracket is narrower than 0.01 months. -/
def ttelLoop (rate : ℚ → Except String ℚ) (economic_limit : ℚ) :
    Nat → ℚ → ℚ → ℚ × ℚ
  | 0, t_low, t_high => (t_low, t_high)
  | fuel + 1, t_low, t_high =>
    let t_mid := (t_low + t_high) / 2
    match rate t_mid with
    | .error _ => ttelLoop rate economic_limit fuel t_low t_mid
    | .ok q_mid =>
      let lh := if economic_limit < q_mid then (t_mid, t_high) else (t_low, t_mid)
      if |lh.2 - lh.1| < 1 / 100 then lh
      else ttelLoop rate economic_limit fuel lh.1 lh.2

/-- monte_carlo.py `MonteCarloEUR._time_to_economic_limit`: quick checks at
`t = 0.01` and `t = max_months`, then the binary search. -/
def MonteCarloEUR.time_to_economic_limit (rate : ℚ → Except String ℚ)
    (economic_limit max_months : ℚ) : ℚ :=
  match rate (1 / 100) with
  | .error _ => 0
  | .ok q_start =>
    if q_start < economic_limit then 0
    else
      match rate max_months with
      | .error _ => max_months
      | .ok q_end =>
        if economic_limit ≤ q_end then max_months
        else
          let lh := ttelLoop rate economic_limit 60 (1 / 100) max_months
          (lh.1 + lh.2) / 2

/-- The body of monte_carlo.py's per-iteration `try` block (lines 86-100):
parameter extraction, time-to-economic-limit search, cumulative evaluation
and volume conversion.  A `.error` is any exception the `except` on line 101
would catch. -/
def eurSampleE (ops : AnalyticOps) (model_type : String) (params : ParamDict)
    (economic_limit max_time_months cum_to_date : ℚ) : Except String ℚ :=
  match extractParams model_type params with
  | .error e => .error e
  | .ok param_values =>
    let t_econ := MonteCarloEUR.time_to_economic_limit
      (rateFun ops model_type param_values) economic_limit max_time_months
    if 0 < t_econ then
      match cumFun ops model_type param_values t_econ with
      | .error e => .error e
      | .ok cum => .ok (cum * (30.4375 : ℚ) + cum_to_date)
    else .ok cum_to_date

/-- monte_carlo.py lines 86-104: the `try`/`except` wrapper — any exception
in the sample's EUR computation degrades the sample to `cum_to_date`. -/
def eurSample (ops : AnalyticOps) (model_type : String) (params : ParamDict)
    (economic_limit max_time_months cum_to_date : ℚ) : ℚ :=
  match eurSampleE ops model_type params economic_limit max_time_months cum_to_date with
  | .ok v => v
  | .error _ => cum_to_date

/-- monte_carlo.py `MonteCarloResult`. -/
structure MonteCarloResult where
  eur_p10 : ℚ
  eur_p50 : ℚ
  eur_p90 : ℚ
  eur_mean : ℚ
  eur_std : ℚ
  eur_distribution : List ℚ
  iterations : Nat
  parameter_samples : List (String × List ℚ)
deriving DecidableEq, Repr

/-- Linear-interpolation lookup at fractional index `h` of a (sorted) sample
list, the kernel of NumPy's default percentile method: with `i = ⌊h⌋`, the
value `s[i] + (h - i) * (s[i+1] - s[i])`, where the `i+1` entry falls back to
`s[i]` at the upper boundary. -/
def interpAt (s : List ℚ) (h : ℚ) : ℚ :=
  s.getD (Int.toNat ⌊h⌋) 0 +
    (h - ⌊h⌋) *
      (s.getD (Int.toNat ⌊h⌋ + 1) (s.getD (Int.toNat ⌊h⌋) 0) -
        s.getD (Int.toNat ⌊h⌋) 0)

/-- `np.percentile(xs, p)` with the default linear interpolation: sort, then
interpolate at virtual index `p / 100 * (n - 1)`. -/
def percentile (xs : List ℚ) (p : ℚ) : ℚ :=
  interpAt (List.insertionSort (fun a b : ℚ => a ≤ b) xs)
    (p / 100 * (((List.insertionSort (fun a b : ℚ => a ≤ b) xs).length : ℚ) - 1))

/-- The main simulation loop of monte_carlo.py lines 75-104, threading the
RNG draw counter; produces the EUR samples in iteration order together with
the per-distribution parameter-sample columns. -/
def runLoop (ops : AnalyticOps) (model_type : String) (base_parameters : ParamDict)
    (param_distributions : List (String × DistConfig))
    (economic_limit cum_to_date max_time_months : ℚ)
    (param_bounds : Option (List (String × ℚ × ℚ))) (draw : Nat → ℚ) :
    Nat → Nat → Except String (List ℚ × List (List ℚ)) × Nat
  | 0, c => (.ok ([], param_distributions.map (fun _ => [])), c)
  | fuel + 1, c =>
    match samplePass param_bounds draw param_distributions c with
    | (.error e, c2) => (.error e, c2)
    | (.ok sampled, c2) =>
      let params := sampled.foldl (fun d p => dictSet d p.1 p.2) base_parameters
      let eur := eurSample ops model_type params economic_limit max_time_months cum_to_date
      match runLoop ops model_type base_parameters param_distributions economic_limit
          cum_to_date max_time_months param_bounds draw fuel c2 with
      | (.error e, c3) => (.error e, c3)
      | (.ok (rest, cols), c3) =>
        (.ok (eur :: rest,
          List.zipWith (fun v col => v :: col) (sampled.map (fun p => p.2)) cols), c3)

/-- monte_carlo.py `MonteCarloEUR.run`: validate the model type, run the
simulation loop, and aggregate with the SPE/PRMS percentile labeling
(`eur_p90` ← 10th percentile, `eur_p50` ← 50th, `eur_p10` ← 90th).
`np.percentile` on an empty sample array raises, hence the emptiness
guard. -/
def MonteCarloEUR.run (ops : AnalyticOps) (model_type : String)
    (base_parameters : ParamDict)
    (param_distributions : List (String × DistConfig))
    (economic_limit cum_to_date : ℚ) (iterations : Nat) (max_time_months : ℚ)
    (param_bounds : Option (List (String × ℚ × ℚ))) (draw : Nat → ℚ) (c : Nat) :
    Except String MonteCarloResult × Nat :=
  if modelTypes.contains model_type then
    match runLoop ops model_type base_parameters param_distributions economic_limit
        cum_to_date max_time_months param_bounds draw iterations c with
    | (.error e, c2) => (.error e, c2)
    | (.ok (eur_samples, cols), c2) =>
      if eur_samples.isEmpty then
        (.error "IndexError: cannot compute percentile of an empty array", c2)
      else
        let m := sumQ eur_samples / eur_samples.length
        (.ok { eur_p10 := percentile eur_samples 90,
               eur_p50 := percentile eur_samples 50,
               eur_p90 := percentile eur_samples 10,
               eur_mean := m,
               eur_std := ops.sqrt (sumQ (eur_samples.map (fun x => (x - m) ^ 2)) / eur_samples.length),
               eur_distribution := eur_samples,
               iterations := iterations,
               parameter_samples := (param_distributions.map (fun p => p.1)).zip cols }, c2)
  else (.error ("Unknown model type: " ++ model_type), c)

/-- An optimization oracle whose solver chain always fails — one concrete
`OptOracle` instantiation for evaluating theorems on closed inputs. -/
def optFailOracle : OptOracle := fun _ _ _ _ _ _ => .error "did not converge"

/-- A concrete `normal` distribution config (for closed evaluations). -/
def cfgNormal : DistConfig :=
  { dtype := "normal", mean := 500, std := 100, dmin := 0, dmax := 0, mode := 0 }

/-- A concrete config with an unknown distribution type (for closed
evaluations). -/
def cfgBogus : DistConfig :=
  { dtype := "bogus", mean := 0, std := 0, dmin := 0, dmax := 0, mode := 0 }

/-! ## Helper lemmas -/

theorem mapE_ok_of_fun {α : Type} (f : α → Except String ℚ) (g : α → ℚ)
    (xs : List α) (h : ∀ x ∈ xs, f x = .ok (g x)) :
    mapE f xs = .ok (xs.map g) := by
  induction xs with
  | nil => rfl
  | cons x xs ih =>
    have hx := h x (List.mem_cons_self x xs)
    have ih2 := ih (fun z hz => h z (List.mem_cons_of_mem _ hz))
    simp [mapE, hx, ih2]

theorem mapE_ok_exists {α β : Type} (f : α → Except String β) (xs : List α)
    (h : ∀ x ∈ xs, isOkE (f x) = true) :
    ∃ ys, mapE f xs = .ok ys ∧ xs.map f = ys.map Except.ok := by
  induction xs with
  | nil => exact ⟨[], rfl, rfl⟩
  | cons x xs ih =>
    have hx := h x (List.mem_cons_self x xs)
    obtain ⟨ys, hys, hmap⟩ := ih (fun z hz => h z (List.mem_cons_of_mem _ hz))
    cases hfx : f x with
    | error e => rw [hfx] at hx; simp [isOkE] at hx
    | ok y =>
      refine ⟨y :: ys, ?_, ?_⟩
      · simp [mapE, hfx, hys]
      · simp [hfx, hmap]

theorem mapE_ok_getD (f : ℚ → Except String ℚ) (xs ys : List ℚ)
    (h : mapE f xs = .ok ys) :
    ys.length = xs.length ∧
      ∀ i, i < xs.length → f (xs.getD i 0) = .ok (ys.getD i 0) := by
  induction xs generalizing ys with
  | nil =>
    simp only [mapE] at h
    cases h
    exact ⟨rfl, fun i hi => absurd hi (by simp)⟩
  | cons x xs ih =>
    simp only [mapE] at h
    cases hfx : f x with
    | error e => rw [hfx] at h; exact absurd h (by simp)
    | ok y =>
      rw [hfx] at h
      cases hrec : mapE f xs with
      | error e => rw [hrec] at h; exact absurd h (by simp)
      | ok zs =>
        rw [hrec] at h
        cases h
        obtain ⟨hlen, hpt⟩ := ih zs hrec
        refine ⟨by simp [hlen], ?_⟩
        intro i hi
        cases i with
        | zero => simpa using hfx
        | succ j =>
          have hj : j < xs.length := by simpa using hi
          simpa using hpt j hj

theorem lookup_FIT_BOUNDS_eq_none (m : String)
    (h : modelTypes.contains m = false) : List.lookup m FIT_BOUNDS = none := by
  have hmem : m ∉ modelTypes := by simpa using h
  simp only [modelTypes, List.mem_cons, List.not_mem_nil, or_false, not_or] at hmem
  obtain ⟨h1, h2, h3, h4, h5, h6⟩ := hmem
  simp [FIT_BOUNDS, List.lookup, beq_eq_false_iff_ne.mpr h1, beq_eq_false_iff_ne.mpr h2,
    beq_eq_false_iff_ne.mpr h3, beq_eq_false_iff_ne.mpr h4, beq_eq_false_iff_ne.mpr h5,
    beq_eq_false_iff_ne.mpr h6]

/-- C7: for `|b - 1| < 1e-10`, `hyperbolic_cumulative` returns the harmonic
logarithmic limit `(qi/di)·ln(1 + di·t)`, i.e. it agrees with
`harmonic_cumulative` at the same arguments. -/
theorem hyperbolic_cumulative_harmonic_limit (ops : AnalyticOps) (t qi di b : ℚ)
    (ht : 0 ≤ t) (hqi : 0 < qi) (hdi : 0 < di) (hb : |b - 1| < 1 / 10 ^ 10) :
    hyperbolic_cumulative ops t qi di b = harmonic_cumulative ops t qi di := by
  have hb0 : ¬ b = 0 := by
    intro h
    rw [h] at hb
    norm_num [abs_of_nonpos] at hb
  have hdi0 : ¬ di = 0 := ne_of_gt hdi
  unfold hyperbolic_cumulative hyperbolic_rate harmonic_cumulative
  rw [if_neg hb0]
  simp [hb, hdi0]
  intro hge
  rw [one_div] at hb
  exact absurd hb (not_lt.mpr hge)

/-- C7 witness: the theorem evaluated at `t = 0`, `qi = 1`, `di = 1`,
`b = 1`. -/
theorem hyperbolic_cumulative_harmonic_limit_witness :
    ((0 : ℚ) ≤ 0 ∧ (0 : ℚ) < 1 ∧ |(1 : ℚ) - 1| < 1 / 10 ^ 10) ∧
      hyperbolic_cumulative constOps 0 1 1 1 = harmonic_cumulative constOps 0 1 1 :=
  ⟨⟨le_refl 0, by norm_num, by norm_num⟩,
   hyperbolic_cumulative_harmonic_limit constOps 0 1 1 1 (le_refl 0)
     (by norm_num) (by norm_num) (by norm_num)⟩

/-- C10: an unrecognized model type makes `generate_forecast` and
`MonteCarloEUR.run` raise `ValueError` before any computation, while
`DCAFitter.fit` reports the same condition as a returned `FitResult` with
`success = false`. -/
theorem unknown_model_raises_vs_fit_reports (ops : AnalyticOps) (opt : OptOracle)
    (model_type : String) (parameters : ParamDict) (fm el ts : ℚ)
    (base : ParamDict) (dists : List (String × DistConfig)) (el2 cd : ℚ)
    (iters : Nat) (mt : ℚ) (pb : Option (List (String × ℚ × ℚ)))
    (draw : Nat → ℚ) (c : Nat) (t q : List ℚ)
    (init : Option (List (String × Option ℚ)))
    (h : modelTypes.contains model_type = false) :
    generate_forecast ops model_type parameters fm el ts =
        .error ("Unknown model type: " ++ model_type) ∧
      MonteCarloEUR.run ops model_type base dists el2 cd iters mt pb draw c =
        (.error ("Unknown model type: " ++ model_type), c) ∧
      DCAFitter.fit ops opt t q model_type init =
        .ok (failFitResult model_type ("Unknown model type: " ++ model_type)) ∧
      (failFitResult model_type ("Unknown model type: " ++ model_type)).success = false := by
  have hmem : model_type ∉ modelTypes := by simpa using h
  refine ⟨?_, ?_, ?_, rfl⟩
  · simp [generate_forecast, hmem]
  · simp [MonteCarloEUR.run, hmem]
  · unfold DCAFitter.fit
    rw [lookup_FIT_BOUNDS_eq_none model_type h]

/-- C10 witness: the theorem evaluated at the unknown model type
`"declinecurve"`. -/
theorem unknown_model_raises_vs_fit_reports_witness :
    (modelTypes.contains "declinecurve" = false) ∧
      generate_forecast constOps "declinecurve" [] 360 5 1 =
        .error ("Unknown model type: " ++ "declinecurve") ∧
      MonteCarloEUR.run constOps "declinecurve" [] [] 5 0 10 600 none
          (fun _ => 0) 0 =
        (.error ("Unknown model type: " ++ "declinecurve"), 0) ∧
      DCAFitter.fit constOps optFailOracle [] [] "declinecurve" none =
        .ok (failFitResult "declinecurve" ("Unknown model type: " ++ "declinecurve")) ∧
      (failFitResult "declinecurve" ("Unknown model type: " ++ "declinecurve")).success = false := by
  refine ⟨by decide, ?_⟩
  have h := unknown_model_raises_vs_fit_reports constOps optFailOracle
    "declinecurve" [] 360 5 1 [] [] 5 0 10 600 none (fun _ => 0) 0 [] [] none
    (by decide)
  exact ⟨h.1, h.2.1, h.2.2.1, h.2.2.2⟩

theorem fit_insufficient_data (ops : AnalyticOps) (opt : OptOracle)
    (t q : List ℚ) (model_type : String)
    (init : Option (List (String × Option ℚ))) (cfg : BoundsCfg)
    (hm : List.lookup model_type FIT_BOUNDS = some cfg)
    (hlen : (cleanData t q).length < 3) :
    DCAFitter.fit ops opt t q model_type init =
      .ok (failFitResult model_type "Insufficient valid data points (need >= 3)") := by
  unfold DCAFitter.fit
  rw [hm]
  have hl : ((cleanData t q).map (fun p => p.1)).length < 3 := by
    simpa [List.length_map] using hlen
  simp only [hl, if_true]

/-- C3: `DCAFitter.fit` never raises and returns `success = false` with a
descriptive message both (a) for an unknown model type and (b) when fewer
than 3 points survive cleaning. -/
theorem fit_validation_failures (ops : AnalyticOps) (opt : OptOracle)
    (t q : List ℚ) (model_type : String)
    (init : Option (List (String × Option ℚ))) :
    (List.lookup model_type FIT_BOUNDS = none →
      ∃ r, DCAFitter.fit ops opt t q model_type init = .ok r ∧
        r.success = false ∧ r.message = "Unknown model type: " ++ model_type) ∧
    (∀ cfg, List.lookup model_type FIT_BOUNDS = some cfg →
      (cleanData t q).length < 3 →
      ∃ r, DCAFitter.fit ops opt t q model_type init = .ok r ∧
        r.success = false ∧
        r.message = "Insufficient valid data points (need >= 3)") := by
  constructor
  · intro hnone
    refine ⟨failFitResult model_type ("Unknown model type: " ++ model_type), ?_, rfl, rfl⟩
    unfold DCAFitter.fit
    rw [hnone]
  · intro cfg hsome hlen
    exact ⟨failFitResult model_type "Insufficient valid data points (need >= 3)",
      fit_insufficient_data ops opt t q model_type init cfg hsome hlen, rfl, rfl⟩

/-- C3 witness: the theorem evaluated at the unknown model `"bogus"` and at
`"exponential"` with empty data. -/
theorem fit_validation_failures_witness :
    (List.lookup "bogus" FIT_BOUNDS = none ∧
      ∃ r, DCAFitter.fit constOps optFailOracle [] [] "bogus" none = .ok r ∧
        r.success = false ∧ r.message = "Unknown model type: " ++ "bogus") ∧
    ((cleanData [] []).length < 3 ∧
      ∃ r, DCAFitter.fit constOps optFailOracle [] [] "exponential" none = .ok r ∧
        r.success = false ∧
        r.message = "Insufficient valid data points (need >= 3)") := by
  constructor
  · exact ⟨rfl,
      (fit_validation_failures constOps optFailOracle [] [] "bogus" none).1 rfl⟩
  · refine ⟨by decide, ?_⟩
    refine (fit_validation_failures constOps optFailOracle [] [] "exponential" none).2
      ⟨["qi", "di"], [1, 1 / 10 ^ 6], [10 ^ 6, 5]⟩ rfl (by decide)

theorem cleanData_time_nonneg (t q : List ℚ) : ∀ p ∈ cleanData t q, 0 ≤ p.1 := by
  intro p hp
  unfold cleanData at hp
  rw [List.mem_filter] at hp
  have h2 := hp.2
  rw [Bool.and_eq_true, decide_eq_true_iff, decide_eq_true_iff] at h2
  exact h2.2

/-- C9 counterexample: at `m = 1`, `duong_rate` (hence any Duong evaluation)
raises `ZeroDivisionError` even at `t = 0` — the plain-float division
`a / (1.0 - m)` is unguarded, so the claim's "never raises" does not hold
for every parameter set. -/
theorem duong_rate_zero_div_at_m_one :
    duong_rate constOps 0 1 (3 / 2) 1 =
      .error "ZeroDivisionError: float division by zero" ∧
    isOkE (duong_rate constOps 0 1 (3 / 2) 1) = false := by
  constructor
  · rfl
  · rfl

/-- C9 amended: for every `t` (including `t = 0`) and every parameter set
with `m ≠ 1`, `duong_rate` and `duong_cumulative` never raise — they clamp
`t` to the positive floor `1e-10` — and `DCAFitter.fit`'s duong branch shifts
the cleaned time array by `+1` whenever its first entry is exactly `0`,
making every shifted time `≥ 1`. -/
theorem duong_time_guards (ops : AnalyticOps) (t qi a m : ℚ) (tl ql : List ℚ)
    (hm : m ≠ 1) :
    isOkE (duong_rate ops t qi a m) = true ∧
    isOkE (duong_cumulative ops t qi a m) = true ∧
    (1 / 10 ^ 10 : ℚ) ≤ max t (1 / 10 ^ 10) ∧
    (((cleanData tl ql).map (fun p => p.1)).head? = some 0 →
      ∀ x ∈ duongShift "duong" ((cleanData tl ql).map (fun p => p.1)), 1 ≤ x) := by
  refine ⟨?_, ?_, le_max_right _ _, ?_⟩
  · simp [duong_rate, hm, isOkE]
  · simp [duong_cumulative, duong_rate, hm, isOkE]
  · intro h0 x hx
    simp only [duongShift, h0] at hx
    norm_num at hx
    obtain ⟨y, hy, rfl⟩ := hx
    obtain ⟨qv, hqv⟩ := hy
    have hnn := cleanData_time_nonneg tl ql (y, qv) hqv
    simp only at hnn
    linarith

/-- C9 witness: the amended theorem evaluated at `t = 0`, `qi = 1`,
`a = 3/2`, `m = 6/5` and cleaned data starting at time 0. -/
theorem duong_time_guards_witness :
    ((6 / 5 : ℚ) ≠ 1) ∧
    isOkE (duong_rate constOps 0 1 (3 / 2) (6 / 5)) = true ∧
    isOkE (duong_cumulative constOps 0 1 (3 / 2) (6 / 5)) = true ∧
    (((cleanData [0, 1, 2] [1, 1, 1]).map (fun p => p.1)).head? = some 0 →
      ∀ x ∈ duongShift "duong" ((cleanData [0, 1, 2] [1, 1, 1]).map (fun p => p.1)),
        1 ≤ x) := by
  have h := duong_time_guards constOps 0 1 (3 / 2) (6 / 5) [0, 1, 2] [1, 1, 1]
    (by norm_num)
  exact ⟨by norm_num, h.1, h.2.1, h.2.2.2⟩

theorem samplePass_unknown (pb : Option (List (String × ℚ × ℚ))) (draw : Nat → ℚ)
    (pre : List (String × DistConfig)) (nm : String) (cfg : DistConfig)
    (rest : List (String × DistConfig)) (c : Nat)
    (hpre : ∀ p ∈ pre, knownDist p.2.dtype = true)
    (hcfg : knownDist cfg.dtype = false) :
    samplePass pb draw (pre ++ (nm, cfg) :: rest) c =
      (.error ("Unknown distribution type: " ++ cfg.dtype), c + pre.length) := by
  induction pre generalizing c with
  | nil => simp [samplePass, MonteCarloEUR.sample_parameter, hcfg]
  | cons hd tl ih =>
    have hhd : knownDist hd.2.dtype = true := hpre hd (List.mem_cons_self _ _)
    have ihh := ih (c + 1) (fun p hp => hpre p (List.mem_cons_of_mem _ hp))
    have harith : c + 1 + tl.length = c + (tl.length + 1) := by omega
    simp only [List.cons_append, samplePass, MonteCarloEUR.sample_parameter, hhd,
      if_true, List.length_cons, List.append_eq, ihh, harith]

/-- C4 counterexample: with `param_distributions` whose first entry is a
valid `normal` config and whose second entry has the unknown type `"bogus"`,
`MonteCarloEUR.run` does raise the configuration `ValueError`, but only after
one RNG draw has already been consumed (`counter = 1 ≠ 0`) — parameter
sampling had begun, inside iteration 0 of the simulation loop, before the
error was raised. -/
theorem mc_sampling_precedes_config_error :
    MonteCarloEUR.run constOps "exponential" [("qi", 500), ("di", 1 / 20)]
        [("qi", cfgNormal), ("di", cfgBogus)] 5 0 1 600 none (fun _ => 1) 0 =
      (.error "Unknown distribution type: bogus", 1) ∧ (1 : Nat) ≠ 0 := by
  constructor
  · rfl
  · decide

/-- C4 amended: an unknown distribution type makes `MonteCarloEUR.run` raise
the configuration `ValueError` during the first simulation iteration, at the
first attempted draw of the offending parameter: the parameters listed before
it are sampled first (exactly `pre.length` RNG draws are consumed), no EUR
sample is computed, and the error is not deferred to later iterations. -/
theorem mc_unknown_dist_fail_fast (ops : AnalyticOps) (model_type : String)
    (base : ParamDict) (pre : List (String × DistConfig)) (nm : String)
    (cfg : DistConfig) (rest : List (String × DistConfig))
    (economic_limit cum_to_date : ℚ) (iterations : Nat) (max_time_months : ℚ)
    (param_bounds : Option (List (String × ℚ × ℚ))) (draw : Nat → ℚ) (c : Nat)
    (hmodel : modelTypes.contains model_type = true)
    (hpre : ∀ p ∈ pre, knownDist p.2.dtype = true)
    (hcfg : knownDist cfg.dtype = false)
    (hiters : 1 ≤ iterations) :
    MonteCarloEUR.run ops model_type base (pre ++ (nm, cfg) :: rest)
        economic_limit cum_to_date iterations max_time_months param_bounds
        draw c =
      (.error ("Unknown distribution type: " ++ cfg.dtype), c + pre.length) := by
  obtain ⟨fuel, rfl⟩ : ∃ k, iterations = k + 1 := ⟨iterations - 1, by omega⟩
  unfold MonteCarloEUR.run
  rw [hmodel]
  simp only [if_true]
  simp only [runLoop,
    samplePass_unknown param_bounds draw pre nm cfg rest c hpre hcfg]

/-- C4 witness: the amended theorem evaluated with one valid `normal`
parameter listed before the unknown-typed one. -/
theorem mc_unknown_dist_fail_fast_witness :
    (modelTypes.contains "exponential" = true ∧
      knownDist cfgBogus.dtype = false ∧ (1 : Nat) ≤ 2) ∧
    MonteCarloEUR.run constOps "exponential" []
        ([("qi", cfgNormal)] ++ [("di", cfgBogus)]) 5 0 2 600 none
        (fun _ => 1) 0 =
      (.error ("Unknown distribution type: " ++ cfgBogus.dtype),
        0 + [("qi", cfgNormal)].length) := by
  refine ⟨⟨by decide, by decide, by decide⟩, ?_⟩
  refine mc_unknown_dist_fail_fast constOps "exponential" [] [("qi", cfgNormal)]
    "di" cfgBogus [] 5 0 2 600 none (fun _ => 1) 0 (by decide) ?_ (by decide)
    (by decide)
  intro p hp
  rw [List.mem_singleton] at hp
  rw [hp]
  decide

theorem mapE_mem_iff {α β : Type} {f : α → Except String β} {xs : List α}
    {ys : List β} (h : xs.map f = ys.map Except.ok) (r : β) :
    r ∈ ys ↔ ∃ x ∈ xs, f x = .ok r := by
  constructor
  · intro hr
    have hmem : (Except.ok r : Except String β) ∈
        ys.map (Except.ok : β → Except String β) :=
      List.mem_map_of_mem (Except.ok : β → Except String β) hr
    rw [← h] at hmem
    obtain ⟨x, hx, hfx⟩ := List.mem_map.mp hmem
    exact ⟨x, hx, hfx⟩
  · rintro ⟨x, hx, hfx⟩
    have hmem : (Except.ok r : Except String β) ∈ xs.map f := by
      rw [List.mem_map]
      exact ⟨x, hx, hfx⟩
    rw [h] at hmem
    obtain ⟨y, hy, hok⟩ := List.mem_map.mp hmem
    have hyr : y = r := by injection hok
    exact hyr ▸ hy

/-- C6: `auto_fit` runs `fit` for every one of the six model types, keeps
only the `success = true` results, returns them sorted ascending by `aic`,
and a model whose fit fails (e.g. the insufficient-data check) is excluded
without raising. -/
theorem auto_fit_sorted_successes (ops : AnalyticOps) (opt : OptOracle)
    (t q : List ℚ)
    (h : ∀ m ∈ modelTypes, isOkE (DCAFitter.fit ops opt t q m none) = true) :
    ∃ l, DCAFitter.auto_fit ops opt t q = .ok l ∧
      List.Sorted aicLE l ∧
      (∀ r ∈ l, r.success = true) ∧
      (∀ m ∈ modelTypes, ∀ r, DCAFitter.fit ops opt t q m none = .ok r →
        (r.success = true → r ∈ l) ∧ (r.success = false → r ∉ l)) ∧
      ((cleanData t q).length < 3 → ∀ m ∈ modelTypes,
        DCAFitter.fit ops opt t q m none =
          .ok (failFitResult m "Insufficient valid data points (need >= 3)")) := by
  have hkeys : FIT_BOUNDS.map (fun p => p.1) = modelTypes := by rfl
  obtain ⟨rs, hrs, hmap⟩ :=
    mapE_ok_exists (fun m => DCAFitter.fit ops opt t q m none) modelTypes h
  have hperm := List.perm_insertionSort aicLE (rs.filter (fun r => r.success))
  have hall : ∀ r ∈ List.insertionSort aicLE (rs.filter (fun r => r.success)),
      r.success = true := by
    intro r hr
    exact (List.mem_filter.mp (hperm.mem_iff.mp hr)).2
  refine ⟨List.insertionSort aicLE (rs.filter (fun r => r.success)), ?_, ?_, hall, ?_, ?_⟩
  · unfold DCAFitter.auto_fit
    rw [hkeys, hrs]
  · exact List.sorted_insertionSort aicLE _
  · intro m hm r hfit
    constructor
    · intro hsucc
      have hrin : r ∈ rs := (mapE_mem_iff hmap r).mpr ⟨m, hm, hfit⟩
      have hfil : r ∈ rs.filter (fun r => r.success) := by
        rw [List.mem_filter]
        exact ⟨hrin, hsucc⟩
      exact hperm.mem_iff.mpr hfil
    · intro hfail hin
      have htrue := hall r hin
      rw [hfail] at htrue
      exact absurd htrue (by decide)
  · intro hlen m hm
    have hsome : ∃ cfg, List.lookup m FIT_BOUNDS = some cfg := by
      simp only [modelTypes, List.mem_cons, List.not_mem_nil, or_false] at hm
      rcases hm with rfl | rfl | rfl | rfl | rfl | rfl
      all_goals exact ⟨_, rfl⟩
    obtain ⟨cfg, hcfg⟩ := hsome
    exact fit_insufficient_data ops opt t q m none cfg hcfg hlen

/-- C6 witness: the theorem evaluated on empty data, where every model's fit
returns the insufficient-data failure record without raising and `auto_fit`
returns the empty sorted list. -/
theorem auto_fit_sorted_successes_witness :
    (∀ m ∈ modelTypes, isOkE (DCAFitter.fit constOps optFailOracle [] [] m none) = true) ∧
    ∃ l, DCAFitter.auto_fit constOps optFailOracle [] [] = .ok l ∧
      List.Sorted aicLE l ∧
      (∀ r ∈ l, r.success = true) ∧
      (∀ m ∈ modelTypes, ∀ r, DCAFitter.fit constOps optFailOracle [] [] m none = .ok r →
        (r.success = true → r ∈ l) ∧ (r.success = false → r ∉ l)) ∧
      ((cleanData ([] : List ℚ) ([] : List ℚ)).length < 3 → ∀ m ∈ modelTypes,
        DCAFitter.fit constOps optFailOracle [] [] m none =
          .ok (failFitResult m "Insufficient valid data points (need >= 3)")) := by
  have hh : ∀ m ∈ modelTypes,
      isOkE (DCAFitter.fit constOps optFailOracle [] [] m none) = true := by
    intro m hm
    simp only [modelTypes, List.mem_cons, List.not_mem_nil, or_false] at hm
    rcases hm with rfl | rfl | rfl | rfl | rfl | rfl
    all_goals rfl
  exact ⟨hh, auto_fit_sorted_successes constOps optFailOracle [] [] hh⟩

theorem getD_irrel (s : List ℚ) (i : Nat) (d1 d2 : ℚ) (h : i < s.length) :
    s.getD i d1 = s.getD i d2 := by
  rw [List.getD_eq_getElem?_getD, List.getD_eq_getElem?_getD,
    List.getElem?_eq_getElem h]
  rfl

theorem getD_sorted_le (s : List ℚ) (hs : List.Sorted (fun a b : ℚ => a ≤ b) s)
    {i j : Nat} (hij : i ≤ j) (hj : j < s.length) :
    s.getD i 0 ≤ s.getD j 0 := by
  have hi : i < s.length := lt_of_le_of_lt hij hj
  rw [List.getD_eq_getElem?_getD, List.getD_eq_getElem?_getD,
    List.getElem?_eq_getElem hi, List.getElem?_eq_getElem hj]
  rcases Nat.eq_or_lt_of_le hij with rfl | hlt
  · exact le_refl _
  · have hrel := @List.Sorted.rel_get_of_lt ℚ (fun a b : ℚ => a ≤ b) s hs
      ⟨i, hi⟩ ⟨j, hj⟩ (Fin.mk_lt_mk.mpr hlt)
    simpa using hrel

theorem interpAt_mono (s : List ℚ) (hs : List.Sorted (fun a b : ℚ => a ≤ b) s)
    (h1 h2 : ℚ) (h10 : 0 ≤ h1) (h12 : h1 ≤ h2)
    (h2n : h2 ≤ (s.length : ℚ) - 1) :
    interpAt s h1 ≤ interpAt s h2 := by
  have h20 : 0 ≤ h2 := le_trans h10 h12
  have hf1 : (0 : ℤ) ≤ ⌊h1⌋ := Int.floor_nonneg.mpr h10
  have hf2 : (0 : ℤ) ≤ ⌊h2⌋ := Int.floor_nonneg.mpr h20
  have hfle : ⌊h1⌋ ≤ ⌊h2⌋ := Int.floor_le_floor h12
  have hfloor2 : ⌊h2⌋ ≤ (s.length : ℤ) - 1 := by
    have hq : (⌊h2⌋ : ℚ) ≤ (s.length : ℚ) - 1 := le_trans (Int.floor_le h2) h2n
    exact_mod_cast hq
  have hi2lt : Int.toNat ⌊h2⌋ < s.length := by omega
  have hc1 : ((Int.toNat ⌊h1⌋ : ℕ) : ℚ) = (⌊h1⌋ : ℚ) := by
    exact_mod_cast Int.toNat_of_nonneg hf1
  have hc2 : ((Int.toNat ⌊h2⌋ : ℕ) : ℚ) = (⌊h2⌋ : ℚ) := by
    exact_mod_cast Int.toNat_of_nonneg hf2
  have hfr1lo : 0 ≤ h1 - (⌊h1⌋ : ℚ) := sub_nonneg.mpr (Int.floor_le h1)
  have hfr1hi : h1 - (⌊h1⌋ : ℚ) < 1 := by
    have := Int.lt_floor_add_one h1
    linarith
  have hfr2lo : 0 ≤ h2 - (⌊h2⌋ : ℚ) := sub_nonneg.mpr (Int.floor_le h2)
  have hi12 : Int.toNat ⌊h1⌋ ≤ Int.toNat ⌊h2⌋ := by omega
  unfold interpAt
  rcases Nat.eq_or_lt_of_le hi12 with heq | hlt
  · -- same interpolation cell
    have hfeq : ⌊h1⌋ = ⌊h2⌋ := by omega
    rw [← heq, ← hfeq]
    have hi1lt : Int.toNat ⌊h1⌋ < s.length := by omega
    have hl : s.getD (Int.toNat ⌊h1⌋) 0 ≤
        s.getD (Int.toNat ⌊h1⌋ + 1) (s.getD (Int.toNat ⌊h1⌋) 0) := by
      by_cases hcase : Int.toNat ⌊h1⌋ + 1 < s.length
      · rw [getD_irrel s (Int.toNat ⌊h1⌋ + 1) _ 0 hcase]
        exact getD_sorted_le s hs (Nat.le_succ _) hcase
      · rw [List.getD_eq_default _ _ (show s.length ≤ Int.toNat ⌊h1⌋ + 1 by omega)]
    have hstep : (h1 - (⌊h1⌋ : ℚ)) *
          (s.getD (Int.toNat ⌊h1⌋ + 1) (s.getD (Int.toNat ⌊h1⌋) 0) -
            s.getD (Int.toNat ⌊h1⌋) 0) ≤
        (h2 - (⌊h1⌋ : ℚ)) *
          (s.getD (Int.toNat ⌊h1⌋ + 1) (s.getD (Int.toNat ⌊h1⌋) 0) -
            s.getD (Int.toNat ⌊h1⌋) 0) :=
      mul_le_mul_of_nonneg_right (by linarith) (sub_nonneg.mpr hl)
    linarith
  · -- distinct cells: i1 < i2
    have hi1succ : Int.toNat ⌊h1⌋ + 1 ≤ Int.toNat ⌊h2⌋ := hlt
    have hi1n : Int.toNat ⌊h1⌋ + 1 < s.length := lt_of_le_of_lt hi1succ hi2lt
    have hhi1 : s.getD (Int.toNat ⌊h1⌋ + 1) (s.getD (Int.toNat ⌊h1⌋) 0) =
        s.getD (Int.toNat ⌊h1⌋ + 1) 0 := getD_irrel s _ _ 0 hi1n
    have hlo1 : s.getD (Int.toNat ⌊h1⌋) 0 ≤ s.getD (Int.toNat ⌊h1⌋ + 1) 0 :=
      getD_sorted_le s hs (Nat.le_succ _) hi1n
    have hup : s.getD (Int.toNat ⌊h1⌋) 0 +
        (h1 - (⌊h1⌋ : ℚ)) *
          (s.getD (Int.toNat ⌊h1⌋ + 1) (s.getD (Int.toNat ⌊h1⌋) 0) -
            s.getD (Int.toNat ⌊h1⌋) 0) ≤
        s.getD (Int.toNat ⌊h1⌋ + 1) 0 := by
      rw [hhi1]
      have hstep : (h1 - (⌊h1⌋ : ℚ)) *
            (s.getD (Int.toNat ⌊h1⌋ + 1) 0 - s.getD (Int.toNat ⌊h1⌋) 0) ≤
          1 * (s.getD (Int.toNat ⌊h1⌋ + 1) 0 - s.getD (Int.toNat ⌊h1⌋) 0) :=
        mul_le_mul_of_nonneg_right (le_of_lt hfr1hi) (sub_nonneg.mpr hlo1)
      linarith
    have hchain : s.getD (Int.toNat ⌊h1⌋ + 1) 0 ≤ s.getD (Int.toNat ⌊h2⌋) 0 :=
      getD_sorted_le s hs hi1succ hi2lt
    have hl2 : s.getD (Int.toNat ⌊h2⌋) 0 ≤
        s.getD (Int.toNat ⌊h2⌋ + 1) (s.getD (Int.toNat ⌊h2⌋) 0) := by
      by_cases hcase : Int.toNat ⌊h2⌋ + 1 < s.length
      · rw [getD_irrel s (Int.toNat ⌊h2⌋ + 1) _ 0 hcase]
        exact getD_sorted_le s hs (Nat.le_succ _) hcase
      · rw [List.getD_eq_default _ _ (show s.length ≤ Int.toNat ⌊h2⌋ + 1 by omega)]
    have hlow : s.getD (Int.toNat ⌊h2⌋) 0 ≤
        s.getD (Int.toNat ⌊h2⌋) 0 +
          (h2 - (⌊h2⌋ : ℚ)) *
            (s.getD (Int.toNat ⌊h2⌋ + 1) (s.getD (Int.toNat ⌊h2⌋) 0) -
              s.getD (Int.toNat ⌊h2⌋) 0) := by
      have hmul : 0 ≤ (h2 - (⌊h2⌋ : ℚ)) *
          (s.getD (Int.toNat ⌊h2⌋ + 1) (s.getD (Int.toNat ⌊h2⌋) 0) -
            s.getD (Int.toNat ⌊h2⌋) 0) :=
        mul_nonneg hfr2lo (sub_nonneg.mpr hl2)
      linarith
    linarith

theorem percentile_mono (xs : List ℚ) (hne : xs ≠ []) (p1 p2 : ℚ)
    (hp1 : 0 ≤ p1) (hp12 : p1 ≤ p2) (hp2 : p2 ≤ 100) :
    percentile xs p1 ≤ percentile xs p2 := by
  unfold percentile
  have hs : List.Sorted (fun a b : ℚ => a ≤ b)
      (List.insertionSort (fun a b : ℚ => a ≤ b) xs) :=
    List.sorted_insertionSort _ xs
  have hlen : (List.insertionSort (fun a b : ℚ => a ≤ b) xs).length = xs.length :=
    (List.perm_insertionSort _ xs).length_eq
  have hn : 1 ≤ (List.insertionSort (fun a b : ℚ => a ≤ b) xs).length := by
    rw [hlen]
    exact List.length_pos.mpr hne
  have hnn : (0 : ℚ) ≤
      ((List.insertionSort (fun a b : ℚ => a ≤ b) xs).length : ℚ) - 1 := by
    have hcast : (1 : ℚ) ≤
        ((List.insertionSort (fun a b : ℚ => a ≤ b) xs).length : ℚ) := by
      exact_mod_cast hn
    linarith
  apply interpAt_mono _ hs
  · exact mul_nonneg (div_nonneg hp1 (by norm_num)) hnn
  · exact mul_le_mul_of_nonneg_right
      ((div_le_div_iff_of_pos_right (by norm_num : (0 : ℚ) < 100)).mpr hp12) hnn
  · have hdiv : p2 / 100 ≤ 1 := (div_le_one (by norm_num)).mpr hp2
    have hstep := mul_le_mul_of_nonneg_right hdiv hnn
    linarith

theorem runLoop_ok_length (ops : AnalyticOps) (model_type : String)
    (base : ParamDict) (dists : List (String × DistConfig)) (el cd mt : ℚ)
    (pb : Option (List (String × ℚ × ℚ))) (draw : Nat → ℚ) :
    ∀ fuel c samples cols c2,
      runLoop ops model_type base dists el cd mt pb draw fuel c =
        (.ok (samples, cols), c2) → samples.length = fuel := by
  intro fuel
  induction fuel with
  | zero =>
    intro c samples cols c2 h
    simp only [runLoop, Prod.mk.injEq, Except.ok.injEq] at h
    obtain ⟨⟨hs, -⟩, -⟩ := h
    rw [← hs]
    rfl
  | succ fuel ih =>
    intro c samples cols c2 h
    simp only [runLoop] at h
    rcases hsp : samplePass pb draw dists c with ⟨res, c2'⟩
    rw [hsp] at h
    cases res with
    | error e => simp at h
    | ok sampled =>
      simp only at h
      rcases hrl : runLoop ops model_type base dists el cd mt pb draw fuel c2' with
        ⟨res2, c3⟩
      rw [hrl] at h
      cases res2 with
      | error e => simp at h
      | ok pr =>
        rcases pr with ⟨rest, cols'⟩
        simp only [Prod.mk.injEq, Except.ok.injEq] at h
        obtain ⟨⟨hsamp, -⟩, -⟩ := h
        rw [← hsamp, List.length_cons, ih c2' rest cols' c3 hrl]

/-- C1: every completed Monte Carlo run labels its percentiles by the
SPE/PRMS convention — `eur_p90` is the 10th percentile of the EUR samples,
`eur_p50` the 50th, `eur_p10` the 90th — the distribution has exactly
`iterations ≥ 1` samples, and consequently
`eur_p10 ≥ eur_p50 ≥ eur_p90`. -/
theorem mc_percentile_convention (ops : AnalyticOps) (model_type : String)
    (base : ParamDict) (dists : List (String × DistConfig)) (el cd : ℚ)
    (iterations : Nat) (mt : ℚ) (pb : Option (List (String × ℚ × ℚ)))
    (draw : Nat → ℚ) (c : Nat) (res : MonteCarloResult) (c2 : Nat)
    (h : MonteCarloEUR.run ops model_type base dists el cd iterations mt pb
        draw c = (.ok res, c2)) :
    res.eur_p90 = percentile res.eur_distribution 10 ∧
    res.eur_p50 = percentile res.eur_distribution 50 ∧
    res.eur_p10 = percentile res.eur_distribution 90 ∧
    res.iterations = iterations ∧
    res.eur_distribution.length = iterations ∧
    1 ≤ iterations ∧
    res.eur_p90 ≤ res.eur_p50 ∧ res.eur_p50 ≤ res.eur_p10 := by
  unfold MonteCarloEUR.run at h
  cases hmodel : modelTypes.contains model_type with
  | false => rw [hmodel] at h; simp at h
  | true =>
    rw [hmodel] at h
    simp only [if_true] at h
    rcases hrl : runLoop ops model_type base dists el cd mt pb draw iterations c with
      ⟨rl, c3⟩
    rw [hrl] at h
    cases rl with
    | error e => simp at h
    | ok pr =>
      rcases pr with ⟨samples, cols⟩
      by_cases hne : samples.isEmpty = true
      · simp only [hne, if_true] at h
        simp at h
      · simp only [hne] at h
        rw [if_neg (by simp [hne])] at h
        simp only [Prod.mk.injEq, Except.ok.injEq] at h
        obtain ⟨hres, -⟩ := h
        have hnil : samples ≠ [] := by
          intro hcon
          rw [hcon] at hne
          exact hne rfl
        have hlen : samples.length = iterations :=
          runLoop_ok_length ops model_type base dists el cd mt pb draw
            iterations c samples cols c3 hrl
        rw [← hres]
        refine ⟨rfl, rfl, rfl, rfl, hlen, ?_, ?_, ?_⟩
        · rw [← hlen]
          have := List.length_pos.mpr hnil
          omega
        · exact percentile_mono samples hnil 10 50 (by norm_num) (by norm_num)
            (by norm_num)
        · exact percentile_mono samples hnil 50 90 (by norm_num) (by norm_num)
            (by norm_num)

theorem rateFun_exp_ones (t : ℚ) :
    rateFun constOps "exponential" [1, 1] t = .ok 1 := by
  show Except.ok (exponential_rate constOps t 1 1) = Except.ok 1
  unfold exponential_rate constOps
  norm_num

theorem ttel_exp_ones :
    MonteCarloEUR.time_to_economic_limit
      (rateFun constOps "exponential" [1, 1]) 0 600 = 600 := by
  unfold MonteCarloEUR.time_to_economic_limit
  rw [rateFun_exp_ones (1 / 100), rateFun_exp_ones 600]
  norm_num

theorem eurSampleE_exp_ones :
    eurSampleE constOps "exponential" [("qi", 1), ("di", 1)] 0 600 0 = .ok 0 := by
  have hext : extractParams "exponential" [("qi", 1), ("di", 1)] = .ok [1, 1] := rfl
  have hcum : cumFun constOps "exponential" [1, 1] 600 = .ok 0 := by
    show exponential_cumulative constOps 600 1 1 = .ok 0
    unfold exponential_cumulative constOps
    norm_num
  unfold eurSampleE
  rw [hext]
  simp only [ttel_exp_ones]
  norm_num [hcum]

theorem percentile_single_zero (p : ℚ) : percentile [(0 : ℚ)] p = 0 := by
  unfold percentile interpAt
  norm_num [List.insertionSort, List.orderedInsert]

theorem mc_run_eval_concrete :
    MonteCarloEUR.run constOps "exponential" [("qi", 1), ("di", 1)] [] 0 0 1 600
      none (fun _ => 0) 0 =
    (.ok { eur_p10 := 0, eur_p50 := 0, eur_p90 := 0, eur_mean := 0, eur_std := 0,
           eur_distribution := [0], iterations := 1, parameter_samples := [] }, 0) := by
  have heur : eurSample constOps "exponential" [("qi", 1), ("di", 1)] 0 600 0 = 0 := by
    unfold eurSample
    rw [eurSampleE_exp_ones]
  have hloop : runLoop constOps "exponential" [("qi", 1), ("di", 1)] [] 0 0 600
      none (fun _ => 0) 1 0 = (.ok ([0], []), 0) := by
    unfold runLoop
    simp only [samplePass, List.foldl_nil, heur]
    unfold runLoop
    simp [List.zipWith]
  unfold MonteCarloEUR.run
  rw [hloop]
  simp only [List.isEmpty_cons, Bool.false_eq_true, if_false]
  norm_num [percentile_single_zero, sumQ, constOps]
  intro hmem
  exact absurd (by decide : "exponential" ∈ modelTypes) hmem

/-- C1 witness: the theorem applied to a concrete completed one-iteration
run. -/
theorem mc_percentile_convention_witness :
    MonteCarloEUR.run constOps "exponential" [("qi", 1), ("di", 1)] [] 0 0 1 600
        none (fun _ => 0) 0 =
      (.ok { eur_p10 := 0, eur_p50 := 0, eur_p90 := 0, eur_mean := 0,
             eur_std := 0, eur_distribution := [0], iterations := 1,
             parameter_samples := [] }, 0) ∧
    ({ eur_p10 := 0, eur_p50 := 0, eur_p90 := 0, eur_mean := 0, eur_std := 0,
       eur_distribution := [0], iterations := 1,
       parameter_samples := [] } : MonteCarloResult).eur_p90 =
      percentile [0] 10 ∧
    ({ eur_p10 := 0, eur_p50 := 0, eur_p90 := 0, eur_mean := 0, eur_std := 0,
       eur_distribution := [0], iterations := 1,
       parameter_samples := [] } : MonteCarloResult).eur_p90 ≤
      ({ eur_p10 := 0, eur_p50 := 0, eur_p90 := 0, eur_mean := 0, eur_std := 0,
         eur_distribution := [0], iterations := 1,
         parameter_samples := [] } : MonteCarloResult).eur_p50 ∧
    ({ eur_p10 := 0, eur_p50 := 0, eur_p90 := 0, eur_mean := 0, eur_std := 0,
       eur_distribution := [0], iterations := 1,
       parameter_samples := [] } : MonteCarloResult).eur_p50 ≤
      ({ eur_p10 := 0, eur_p50 := 0, eur_p90 := 0, eur_mean := 0, eur_std := 0,
         eur_distribution := [0], iterations := 1,
         parameter_samples := [] } : MonteCarloResult).eur_p10 := by
  have h := mc_run_eval_concrete
  have ht := mc_percentile_convention constOps "exponential" [("qi", 1), ("di", 1)]
    [] 0 0 1 600 none (fun _ => 0) 0 _ 0 h
  exact ⟨h, ht.1, ht.2.2.2.2.2.2.1, ht.2.2.2.2.2.2.2⟩

theorem iterParams_eq (base : ParamDict) (dists : List (String × DistConfig))
    (pb : Option (List (String × ℚ × ℚ))) (draw : Nat → ℚ) (c : Nat) :
    (sampledAt pb draw dists c).foldl (fun d p => dictSet d p.1 p.2) base =
      iterParams base dists pb draw c := rfl

theorem samplePass_known (pb : Option (List (String × ℚ × ℚ))) (draw : Nat → ℚ)
    (dists : List (String × DistConfig)) (c : Nat)
    (h : ∀ p ∈ dists, knownDist p.2.dtype = true) :
    samplePass pb draw dists c =
      (.ok (sampledAt pb draw dists c), c + dists.length) := by
  induction dists generalizing c with
  | nil => simp [samplePass, sampledAt]
  | cons hd tl ih =>
    have hhd : knownDist hd.2.dtype = true := h hd (List.mem_cons_self _ _)
    have ihh := ih (c + 1) (fun p hp => h p (List.mem_cons_of_mem _ hp))
    have harith : c + 1 + tl.length = c + (tl.length + 1) := by omega
    simp only [samplePass, sampledAt, MonteCarloEUR.sample_parameter, hhd,
      if_true, ihh, List.length_cons, harith]

theorem runLoop_known (ops : AnalyticOps) (model_type : String)
    (base : ParamDict) (dists : List (String × DistConfig)) (el cd mt : ℚ)
    (pb : Option (List (String × ℚ × ℚ))) (draw : Nat → ℚ)
    (h : ∀ p ∈ dists, knownDist p.2.dtype = true) :
    ∀ fuel c, ∃ cols,
      runLoop ops model_type base dists el cd mt pb draw fuel c =
        (.ok ((List.range fuel).map (fun i =>
            eurSample ops model_type
              (iterParams base dists pb draw (c + i * dists.length)) el mt cd),
          cols), c + fuel * dists.length) := by
  intro fuel
  induction fuel with
  | zero =>
    intro c
    exact ⟨dists.map (fun _ => []), by simp [runLoop]⟩
  | succ fuel ih =>
    intro c
    obtain ⟨cols, hcols⟩ := ih (c + dists.length)
    refine ⟨List.zipWith (fun v col => v :: col)
      ((sampledAt pb draw dists c).map (fun p => p.2)) cols, ?_⟩
    have hsamples :
        eurSample ops model_type (iterParams base dists pb draw c) el mt cd ::
          (List.range fuel).map (fun i => eurSample ops model_type
            (iterParams base dists pb draw
              (c + dists.length + i * dists.length)) el mt cd) =
        (List.range (fuel + 1)).map (fun i => eurSample ops model_type
          (iterParams base dists pb draw (c + i * dists.length)) el mt cd) := by
      rw [List.range_succ_eq_map, List.map_cons, List.map_map]
      refine congrArg₂ List.cons ?_ ?_
      · norm_num
      · refine List.map_congr_left ?_
        intro i hi
        simp only [Function.comp_apply]
        have harith : c + dists.length + i * dists.length =
            c + (i + 1) * dists.length := by ring
        rw [harith]
    have hcnt : c + dists.length + fuel * dists.length =
        c + (fuel + 1) * dists.length := by ring
    simp only [runLoop, samplePass_known pb draw dists c h]
    rw [hcols, iterParams_eq]
    dsimp only
    rw [hsamples, hcnt]

theorem eurSample_of_error (ops : AnalyticOps) (model_type : String)
    (params : ParamDict) (el mt cd : ℚ)
    (h : isOkE (eurSampleE ops model_type params el mt cd) = false) :
    eurSample ops model_type params el mt cd = cd := by
  unfold eurSample
  rcases he : eurSampleE ops model_type params el mt cd with e | v
  · rfl
  · rw [he] at h
    simp [isOkE] at h

theorem getD_range_map (f : Nat → ℚ) (n i : Nat) (hi : i < n) :
    ((List.range n).map f).getD i 0 = f i := by
  rw [List.getD_eq_getElem?_getD, List.getElem?_map, List.getElem?_range hi]
  rfl

/-- C5: with a known model type, known distribution types and at least one
iteration, `MonteCarloEUR.run` completes and returns a distribution of
exactly `iterations` samples; sample `i` is `eurSample` of that iteration's
parameter set, and whenever the sample's EUR computation raises
(`eurSampleE` returns an error: failed parameter extraction, rate/cumulative
evaluation, or economic-limit search), that sample degrades to
`cum_to_date` instead of aborting the run. -/
theorem mc_run_degrades_per_sample (ops : AnalyticOps) (model_type : String)
    (base : ParamDict) (dists : List (String × DistConfig)) (el cd : ℚ)
    (iterations : Nat) (mt : ℚ) (pb : Option (List (String × ℚ × ℚ)))
    (draw : Nat → ℚ) (c : Nat)
    (hmodel : modelTypes.contains model_type = true)
    (hknown : ∀ p ∈ dists, knownDist p.2.dtype = true)
    (hiters : 1 ≤ iterations) :
    ∃ res c2, MonteCarloEUR.run ops model_type base dists el cd iterations mt pb
        draw c = (.ok res, c2) ∧
      res.eur_distribution.length = iterations ∧
      res.iterations = iterations ∧
      ∀ i, i < iterations →
        res.eur_distribution.getD i 0 =
          eurSample ops model_type
            (iterParams base dists pb draw (c + i * dists.length)) el mt cd ∧
        (isOkE (eurSampleE ops model_type
            (iterParams base dists pb draw (c + i * dists.length)) el mt cd) =
              false →
          res.eur_distribution.getD i 0 = cd) := by
  obtain ⟨cols, hrl⟩ :=
    runLoop_known ops model_type base dists el cd mt pb draw hknown iterations c
  set samples := (List.range iterations).map (fun i =>
      eurSample ops model_type
        (iterParams base dists pb draw (c + i * dists.length)) el mt cd)
    with hsdef
  have hne : samples.isEmpty = false := by
    rw [hsdef]
    rcases iterations with - | k
    · omega
    · rw [List.range_succ_eq_map]
      rfl
  refine ⟨{ eur_p10 := percentile samples 90, eur_p50 := percentile samples 50,
            eur_p90 := percentile samples 10,
            eur_mean := sumQ samples / samples.length,
            eur_std := ops.sqrt (sumQ (samples.map
              (fun x => (x - sumQ samples / samples.length) ^ 2)) /
                samples.length),
            eur_distribution := samples, iterations := iterations,
            parameter_samples := (dists.map (fun p => p.1)).zip cols },
    c + iterations * dists.length, ?_, ?_, rfl, ?_⟩
  · unfold MonteCarloEUR.run
    rw [hmodel]
    simp only [if_true]
    rw [hrl]
    simp only [hne, Bool.false_eq_true, if_false]
  · rw [hsdef]
    simp [List.length_map, List.length_range]
  · intro i hi
    constructor
    · simp only [MonteCarloResult.eur_distribution, hsdef]
      exact getD_range_map _ iterations i hi
    · intro herr
      simp only [MonteCarloResult.eur_distribution, hsdef]
      rw [getD_range_map _ iterations i hi]
      exact eurSample_of_error ops model_type _ el mt cd herr

/-- C5 witness: the theorem applied to a concrete run with one sampled
parameter and one iteration. -/
theorem mc_run_degrades_per_sample_witness :
    (modelTypes.contains "exponential" = true ∧
      (∀ p ∈ [("qi", cfgNormal)], knownDist p.2.dtype = true) ∧
      (1 : Nat) ≤ 1) ∧
    ∃ res c2, MonteCarloEUR.run constOps "exponential" [("qi", 1), ("di", 1)]
        [("qi", cfgNormal)] 0 0 1 600 none (fun _ => 1) 0 = (.ok res, c2) ∧
      res.eur_distribution.length = 1 ∧
      res.iterations = 1 ∧
      ∀ i, i < 1 →
        res.eur_distribution.getD i 0 =
          eurSample constOps "exponential"
            (iterParams [("qi", 1), ("di", 1)] [("qi", cfgNormal)] none
              (fun _ => 1) (0 + i * [("qi", cfgNormal)].length)) 0 600 0 ∧
        (isOkE (eurSampleE constOps "exponential"
            (iterParams [("qi", 1), ("di", 1)] [("qi", cfgNormal)] none
              (fun _ => 1) (0 + i * [("qi", cfgNormal)].length)) 0 600 0) =
              false →
          res.eur_distribution.getD i 0 = 0) := by
  refine ⟨⟨by decide, by decide, by decide⟩, ?_⟩
  exact mc_run_degrades_per_sample constOps "exponential" [("qi", 1), ("di", 1)]
    [("qi", cfgNormal)] 0 0 1 600 none (fun _ => 1) 0 (by decide) (by decide)
    (by decide)

theorem findIdx_map_comp {α β : Type} (f : α → β) (p : β → Bool) (l : List α) :
    (l.map f).findIdx p = l.findIdx (fun x => p (f x)) := by
  induction l with
  | nil => rfl
  | cons x xs ih => simp only [List.map_cons, List.findIdx_cons, ih]

theorem getD_eq_getElem_of_lt (l : List ℚ) (i : Nat) (hi : i < l.length) :
    l.getD i 0 = l[i] := by
  rw [List.getD_eq_getElem?_getD, List.getElem?_eq_getElem hi]
  rfl

theorem getD_map_lt (g : ℚ → ℚ) (l : List ℚ) (i : Nat) (hi : i < l.length) :
    (l.map g).getD i 0 = g (l.getD i 0) := by
  rw [List.getD_eq_getElem?_getD, List.getD_eq_getElem?_getD, List.getElem?_map,
    List.getElem?_eq_getElem hi]
  rfl

theorem getD_take_lt (l : List ℚ) (j i : Nat) (hij : i < j) :
    (l.take j).getD i 0 = l.getD i 0 := by
  rw [List.getD_eq_getElem?_getD, List.getD_eq_getElem?_getD,
    List.getElem?_take, if_pos hij]

theorem mem_take_getD {l : List ℚ} {j : Nat} {r : ℚ} (h : r ∈ l.take j) :
    ∃ i, i < j ∧ i < l.length ∧ l.getD i 0 = r := by
  obtain ⟨i, hi, hget⟩ := List.mem_iff_getElem.mp h
  have hlen := List.length_take j l
  have hij : i < j := by
    rw [hlen] at hi
    omega
  have hil : i < l.length := by
    rw [hlen] at hi
    omega
  refine ⟨i, hij, hil, ?_⟩
  rw [getD_eq_getElem_of_lt l i hil, ← hget]
  simp [List.getElem_take]

theorem forecastGrid_exp_2_1 : forecastGrid "exponential" 2 1 = [1, 2] := by
  have hnd : ("exponential" == "duong") = false := by decide
  unfold forecastGrid arange
  rw [hnd]
  simp only [Bool.false_eq_true, if_false, if_pos (by norm_num : (0 : ℚ) < 1)]
  have hc : (Int.toNat ⌈((2 : ℚ) + 1 - 1) / 1⌉) = 2 := by
    have hceil : ⌈((2 : ℚ) + 1 - 1) / 1⌉ = 2 := by norm_num
    rw [hceil]
    rfl
  rw [hc]
  have hr : List.range 2 = [0, 1] := by rfl
  rw [hr]
  norm_num

/-- C2 counterexample: for the known model `exponential` and the complete
parameter mapping `{qi: 1, di: 0}`, `generate_forecast` raises
`ZeroDivisionError` (the plain-float division `qi / di` inside
`exponential_cumulative`) — it does not return three arrays. -/
theorem generate_forecast_raises_at_di_zero :
    generate_forecast constOps "exponential" [("qi", 1), ("di", 0)] 2 0 1 =
      .error "ZeroDivisionError: float division by zero" ∧
    isOkE (generate_forecast constOps "exponential" [("qi", 1), ("di", 0)] 2 0 1)
      = false := by
  have hmain : generate_forecast constOps "exponential" [("qi", 1), ("di", 0)] 2 0 1 =
      .error "ZeroDivisionError: float division by zero" := by
    unfold generate_forecast
    rw [forecastGrid_exp_2_1]
    rfl
  exact ⟨hmain, by rw [hmain]; rfl⟩

/-- C2 amended: whenever `generate_forecast` completes without raising (the
model formulas can raise, e.g. `ZeroDivisionError` at `di = 0`), it returns
three equal-length arrays with every returned rate `≥ economic_limit`; the
returned times are a prefix of the forecast grid; the series either keeps
the whole grid or stops strictly before the first below-limit rate; a first
grid point below the limit forces empty output; and each returned
cumulative value is the model's analytic cumulative at that time multiplied
by 30.4375. -/
theorem generate_forecast_spec (ops : AnalyticOps) (model_type : String)
    (parameters : ParamDict) (fm el ts : ℚ) (f : ForecastSeries)
    (h : generate_forecast ops model_type parameters fm el ts = .ok f) :
    f.rate.length = f.time.length ∧
    f.cumulative.length = f.time.length ∧
    (∀ r ∈ f.rate, el ≤ r) ∧
    ∃ vals, extractParams model_type parameters = .ok vals ∧
      f.time = (forecastGrid model_type fm ts).take f.time.length ∧
      (f.time.length = (forecastGrid model_type fm ts).length ∨
        ∃ rcut, rateFun ops model_type vals
            ((forecastGrid model_type fm ts).getD f.time.length 0) = .ok rcut ∧
          rcut < el) ∧
      (∀ i, i < f.time.length →
        rateFun ops model_type vals (f.time.getD i 0) = .ok (f.rate.getD i 0) ∧
        ∃ cv, cumFun ops model_type vals (f.time.getD i 0) = .ok cv ∧
          f.cumulative.getD i 0 = cv * (30.4375 : ℚ)) ∧
      (forecastGrid model_type fm ts ≠ [] → ∀ r0,
        rateFun ops model_type vals ((forecastGrid model_type fm ts).getD 0 0) =
          .ok r0 → r0 < el → f.time = []) := by
  unfold generate_forecast at h
  cases hc : modelTypes.contains model_type with
  | false =>
    rw [hc] at h
    simp at h
  | true =>
    rw [hc] at h
    simp only [if_true] at h
    set grid := forecastGrid model_type fm ts with hgriddef
    rcases hext : extractParams model_type parameters with e | vals
    · rw [hext] at h
      simp at h
    · rw [hext] at h
      dsimp only at h
      rcases hr : mapE (rateFun ops model_type vals) grid with e2 | rates
      · rw [hr] at h
        simp at h
      · rw [hr] at h
        dsimp only at h
        rcases hcm : mapE (cumFun ops model_type vals) grid with e3 | cums
        · rw [hcm] at h
          simp at h
        · rw [hcm] at h
          obtain ⟨hlenr, hptr⟩ := mapE_ok_getD _ _ _ hr
          obtain ⟨hlenc, hptc⟩ := mapE_ok_getD _ _ _ hcm
          dsimp only at h
          by_cases hall :
              (rates.map (fun r => decide (el ≤ r))).all (fun x => x) = true
          · rw [if_pos hall] at h
            have hge : ∀ r ∈ rates, el ≤ r := by
              intro r hrm
              have hb := List.all_eq_true.mp hall _ (List.mem_map_of_mem _ hrm)
              simpa using hb
            have hf : f = ⟨grid, rates, cums.map (fun c => c * (30.4375 : ℚ))⟩ :=
              (Except.ok.inj h).symm
            subst hf
            refine ⟨hlenr, by simpa [List.length_map] using hlenc, hge,
              vals, rfl, ?_, Or.inl rfl, ?_, ?_⟩
            · show grid = grid.take grid.length
              rw [List.take_length]
            · intro i hi
              have hic : i < cums.length := by
                rw [hlenc]
                exact hi
              exact ⟨hptr i hi, cums.getD i 0, hptc i hi,
                getD_map_lt _ cums i hic⟩
            · intro hne r0 hr0 hlt
              have h0 : 0 < grid.length := List.length_pos.mpr hne
              have h0r : 0 < rates.length := by
                rw [hlenr]
                exact h0
              have hp0 := hptr 0 h0
              rw [hr0] at hp0
              have hreq : r0 = rates.getD 0 0 := Except.ok.inj hp0
              have hmem : rates.getD 0 0 ∈ rates := by
                rw [getD_eq_getElem_of_lt rates 0 h0r]
                exact List.getElem_mem h0r
              exact absurd hlt (not_lt.mpr (hreq ▸ hge _ hmem))
          · rw [if_neg hall] at h
            have hex : ∃ x, x ∈ rates.map (fun r => decide (el ≤ r)) ∧
                (fun x => !x) x = true := by
              by_contra hcon
              push_neg at hcon
              apply hall
              rw [List.all_eq_true]
              intro x hx
              have hnx := hcon x hx
              cases x
              · simp at hnx
              · rfl
            have hjlt := List.findIdx_lt_length_of_exists hex
            have hjr : (rates.map (fun r => decide (el ≤ r))).findIdx
                (fun x => !x) < rates.length := by
              rw [← List.length_map rates (fun r => decide (el ≤ r))]
              exact hjlt
            have hjg : (rates.map (fun r => decide (el ≤ r))).findIdx
                (fun x => !x) < grid.length := by
              rw [← hlenr]
              exact hjr
            have hpre : ∀ i, i < (rates.map (fun r => decide (el ≤ r))).findIdx
                (fun x => !x) → el ≤ rates.getD i 0 := by
              intro i hij
              have hib : i < rates.length := lt_trans hij hjr
              have hx := List.not_of_lt_findIdx hij
              rw [List.getElem_map] at hx
              have hdec : decide (el ≤ rates[i]) = true := by
                cases hd : decide (el ≤ rates[i])
                · rw [hd] at hx
                  simp at hx
                · rfl
              rw [getD_eq_getElem_of_lt rates i hib]
              exact of_decide_eq_true hdec
            have hhit : rates.getD ((rates.map (fun r => decide (el ≤ r))).findIdx
                (fun x => !x)) 0 < el := by
              have hx := List.findIdx_getElem (w := hjlt)
              rw [List.getElem_map] at hx
              have hdec : decide (el ≤ rates[(rates.map
                  (fun r => decide (el ≤ r))).findIdx (fun x => !x)]) = false := by
                cases hd : decide (el ≤ rates[(rates.map
                    (fun r => decide (el ≤ r))).findIdx (fun x => !x)])
                · rfl
                · rw [hd] at hx
                  simp at hx
              rw [getD_eq_getElem_of_lt rates _ hjr]
              exact not_le.mp (of_decide_eq_false hdec)
            by_cases h0 : 0 < (rates.map (fun r => decide (el ≤ r))).findIdx
                (fun x => !x)
            · rw [if_pos h0] at h
              have hf : f = ⟨grid.take ((rates.map (fun r => decide (el ≤ r))).findIdx
                    (fun x => !x)),
                  rates.take ((rates.map (fun r => decide (el ≤ r))).findIdx
                    (fun x => !x)),
                  (cums.take ((rates.map (fun r => decide (el ≤ r))).findIdx
                    (fun x => !x))).map (fun c => c * (30.4375 : ℚ))⟩ :=
                (Except.ok.inj h).symm
              subst hf
              have hjlen : ((grid.take ((rates.map (fun r => decide (el ≤ r))).findIdx
                  (fun x => !x))).length) = (rates.map (fun r => decide (el ≤ r))).findIdx
                  (fun x => !x) := by
                rw [List.length_take]
                exact Nat.min_eq_left (le_of_lt hjg)
              refine ⟨?_, ?_, ?_, vals, rfl, ?_, ?_, ?_, ?_⟩
              · show (rates.take _).length = (grid.take _).length
                rw [List.length_take, List.length_take, hlenr]
              · show ((cums.take _).map _).length = (grid.take _).length
                rw [List.length_map, List.length_take, List.length_take, hlenc]
              · intro r hrm
                obtain ⟨i, hij, hil, hget⟩ := mem_take_getD hrm
                rw [← hget]
                exact hpre i hij
              · show grid.take _ = grid.take ((grid.take _).length)
                rw [hjlen]
              · refine Or.inr ⟨rates.getD ((rates.map (fun r =>
                  decide (el ≤ r))).findIdx (fun x => !x)) 0, ?_, hhit⟩
                rw [hjlen]
                exact hptr _ hjg
              · intro i hi
                rw [hjlen] at hi
                have hig : i < grid.length := lt_trans hi hjg
                have hirr : i < rates.length := lt_trans hi hjr
                have hicc : i < cums.length := by
                  rw [hlenc]
                  exact hig
                have hict : i < (cums.take ((rates.map (fun r =>
                    decide (el ≤ r))).findIdx (fun x => !x))).length := by
                  rw [List.length_take]
                  omega
                refine ⟨?_, cums.getD i 0, ?_, ?_⟩
                · rw [getD_take_lt grid _ i hi, getD_take_lt rates _ i hi]
                  exact hptr i hig
                · rw [getD_take_lt grid _ i hi]
                  exact hptc i hig
                · rw [getD_map_lt _ _ i hict, getD_take_lt cums _ i hi]
              · intro hne r0 hr0 hlt
                have hgl : 0 < grid.length := List.length_pos.mpr hne
                have hp0 := hptr 0 hgl
                rw [hr0] at hp0
                have hreq : r0 = rates.getD 0 0 := Except.ok.inj hp0
                have := hpre 0 h0
                rw [← hreq] at this
                exact absurd hlt (not_lt.mpr this)
            · rw [if_neg h0] at h
              have hf : f = ⟨[], [], []⟩ := (Except.ok.inj h).symm
              subst hf
              have hj0 : (rates.map (fun r => decide (el ≤ r))).findIdx
                  (fun x => !x) = 0 := by omega
              refine ⟨rfl, rfl, ?_, vals, rfl, by simp, ?_, ?_, ?_⟩
              · intro r hrm
                exact absurd hrm (List.not_mem_nil r)
              · refine Or.inr ⟨rates.getD 0 0, ?_, ?_⟩
                · show rateFun ops model_type vals (grid.getD 0 0) = _
                  have h0g : 0 < grid.length := by
                    rw [← hlenr]
                    omega
                  exact hptr 0 h0g
                · rw [← hj0]
                  exact hhit
              · intro i hi
                exact absurd hi (by simp)
              · intro _ _ _ _
                rfl

theorem cumFun_exp_ones (t : ℚ) :
    cumFun constOps "exponential" [1, 1] t = .ok 0 := by
  show exponential_cumulative constOps t 1 1 = .ok 0
  unfold exponential_cumulative constOps
  norm_num

theorem generate_forecast_eval_concrete :
    generate_forecast constOps "exponential" [("qi", 1), ("di", 1)] 2 0 1 =
      .ok ⟨[1, 2], [1, 1], [0, 0]⟩ := by
  unfold generate_forecast
  simp only [show modelTypes.contains "exponential" = true from by decide,
    if_true, forecastGrid_exp_2_1]
  rw [show extractParams "exponential" [("qi", 1), ("di", 1)] = .ok [1, 1] from rfl]
  dsimp only
  rw [mapE_ok_of_fun _ (fun _ => (1 : ℚ)) [1, 2] (fun x _ => rateFun_exp_ones x)]
  dsimp only
  rw [mapE_ok_of_fun _ (fun _ => (0 : ℚ)) [1, 2] (fun x _ => cumFun_exp_ones x)]
  dsimp only
  norm_num

/-- C2 witness: the amended theorem applied to a concrete completed
forecast. -/
theorem generate_forecast_spec_witness :
    generate_forecast constOps "exponential" [("qi", 1), ("di", 1)] 2 0 1 =
      .ok ⟨[1, 2], [1, 1], [0, 0]⟩ ∧
    (∀ r ∈ (⟨[1, 2], [1, 1], [0, 0]⟩ : ForecastSeries).rate, (0 : ℚ) ≤ r) ∧
    (⟨[1, 2], [1, 1], [0, 0]⟩ : ForecastSeries).rate.length =
      (⟨[1, 2], [1, 1], [0, 0]⟩ : ForecastSeries).time.length := by
  have heval := generate_forecast_eval_concrete
  have ht := generate_forecast_spec constOps "exponential" [("qi", 1), ("di", 1)]
    2 0 1 _ heval
  exact ⟨heval, ht.2.2.1, ht.1⟩

theorem forecastGrid_harm_10_3 : forecastGrid "harmonic" 10 3 = [3, 6, 9, 12] := by
  have hnd : ("harmonic" == "duong") = false := by decide
  unfold forecastGrid arange
  rw [hnd]
  simp only [Bool.false_eq_true, if_false, if_pos (by norm_num : (0 : ℚ) < 3)]
  have hc : Int.toNat ⌈((10 : ℚ) + 3 - 3) / 3⌉ = 4 := by
    have hceil : ⌈((10 : ℚ) + 3 - 3) / 3⌉ = 4 := by
      rw [show ((10 : ℚ) + 3 - 3) / 3 = 10 / 3 by norm_num, Int.ceil_eq_iff] <;>
        norm_num
    rw [hceil]
    rfl
  rw [hc]
  have hr : List.range 4 = [0, 1, 2, 3] := by rfl
  rw [hr]
  norm_num

theorem rateFun_harm_ones (t : ℚ) :
    rateFun constOps "harmonic" [1, 1] t = .ok (1 / (1 + t)) := by
  show Except.ok (harmonic_rate t 1 1) = _
  unfold harmonic_rate
  norm_num

theorem cumFun_harm_ones (t : ℚ) :
    cumFun constOps "harmonic" [1, 1] t = .ok 0 := by
  show harmonic_cumulative constOps t 1 1 = .ok 0
  unfold harmonic_cumulative constOps
  norm_num

theorem generate_forecast_eval_harm :
    generate_forecast constOps "harmonic" [("qi", 1), ("di", 1)] 10 0 3 =
      .ok ⟨[3, 6, 9, 12], [1 / 4, 1 / 7, 1 / 10, 1 / 13], [0, 0, 0, 0]⟩ := by
  unfold generate_forecast
  simp only [show modelTypes.contains "harmonic" = true from by decide,
    if_true, forecastGrid_harm_10_3]
  rw [show extractParams "harmonic" [("qi", 1), ("di", 1)] = .ok [1, 1] from rfl]
  dsimp only
  rw [mapE_ok_of_fun _ (fun t => 1 / (1 + t)) [3, 6, 9, 12]
    (fun x _ => rateFun_harm_ones x)]
  dsimp only
  rw [mapE_ok_of_fun _ (fun _ => (0 : ℚ)) [3, 6, 9, 12]
    (fun x _ => cumFun_harm_ones x)]
  dsimp only
  norm_num

/-- C8 counterexample: with `time_step = 3` and `forecast_months = 10`, the
returned series ends at time `12 = 3 · ⌈10/3⌉`, which exceeds
`forecast_months` and is not the last multiple of the step `≤ 10` (that
would be 9), and the series has `4 > ⌊10/3⌋ = 3` points: `np.arange(ts,
fm + ts, ts)` includes every multiple strictly below `fm + ts`. -/
theorem forecast_grid_overshoots_months :
    generate_forecast constOps "harmonic" [("qi", 1), ("di", 1)] 10 0 3 =
      .ok ⟨[3, 6, 9, 12], [1 / 4, 1 / 7, 1 / 10, 1 / 13], [0, 0, 0, 0]⟩ ∧
    (⟨[3, 6, 9, 12], [1 / 4, 1 / 7, 1 / 10, 1 / 13], [0, 0, 0, 0]⟩ :
      ForecastSeries).time.getLast? = some 12 ∧
    ¬ ((12 : ℚ) ≤ 10) ∧
    (⟨[3, 6, 9, 12], [1 / 4, 1 / 7, 1 / 10, 1 / 13], [0, 0, 0, 0]⟩ :
      ForecastSeries).time.length = 4 ∧
    ¬ ((4 : ℕ) ≤ 3) := by
  refine ⟨generate_forecast_eval_harm, rfl, by norm_num, rfl, by norm_num⟩

theorem arange_forecast (fm ts : ℚ) (hts : 0 < ts) :
    arange ts (fm + ts) ts =
      (List.range (Int.toNat ⌈fm / ts⌉)).map (fun k : ℕ => ts + (k : ℚ) * ts) := by
  unfold arange
  rw [if_pos hts]
  have heq : fm + ts - ts = fm := by ring
  rw [heq]

theorem range_map_getLast (g : Nat → ℚ) (n : Nat) (hn : 1 ≤ n) :
    ((List.range n).map g).getLast? = some (g (n - 1)) := by
  obtain ⟨m, rfl⟩ : ∃ m, n = m + 1 := ⟨n - 1, by omega⟩
  rw [List.range_succ, List.map_append]
  simp [List.getLast?_concat]

theorem generate_forecast_full (ops : AnalyticOps) (model_type : String)
    (parameters : ParamDict) (fm el ts : ℚ) (vals : List ℚ) (g : ℚ → ℚ)
    (hmodel : modelTypes.contains model_type = true)
    (hnd : (model_type == "duong") = false)
    (hext : extractParams model_type parameters = .ok vals)
    (hrate : ∀ x ∈ arange ts (fm + ts) ts,
      rateFun ops model_type vals x = .ok (g x))
    (hcum : ∀ x ∈ arange ts (fm + ts) ts,
      isOkE (cumFun ops model_type vals x) = true)
    (hpos : ∀ x ∈ arange ts (fm + ts) ts, el ≤ g x) :
    ∃ f, generate_forecast ops model_type parameters fm el ts = .ok f ∧
      f.time = arange ts (fm + ts) ts := by
  obtain ⟨cums, hcm, -⟩ :=
    mapE_ok_exists (cumFun ops model_type vals) (arange ts (fm + ts) ts) hcum
  have hrm := mapE_ok_of_fun _ g _ hrate
  refine ⟨⟨arange ts (fm + ts) ts, (arange ts (fm + ts) ts).map g,
    cums.map (fun c => c * (30.4375 : ℚ))⟩, ?_, rfl⟩
  unfold generate_forecast
  rw [hmodel]
  simp only [if_true]
  unfold forecastGrid
  rw [hnd]
  simp only [Bool.false_eq_true, if_false]
  rw [hext]
  dsimp only
  rw [hrm]
  dsimp only
  rw [hcm]
  dsimp only
  have hall : (((arange ts (fm + ts) ts).map g).map
      (fun r => decide (el ≤ r))).all (fun x => x) = true := by
    rw [List.all_eq_true]
    intro x hx
    obtain ⟨r, hrmem, rfl⟩ := List.mem_map.mp hx
    obtain ⟨t, htm, rfl⟩ := List.mem_map.mp hrmem
    simpa using hpos t htm
  rw [if_pos hall]

/-- C8 amended: with `economic_limit = 0`, positive parameters and a model
whose EUR is infinite (`harmonic`, or `hyperbolic` with `b ≥ 1`, given the
real-power positivity law), `generate_forecast` terminates and returns
exactly `⌈forecast_months / time_step⌉` points, the last at time
`time_step · ⌈forecast_months / time_step⌉` (which equals the last multiple
of `time_step` that is `≤ forecast_months` exactly when `time_step` divides
`forecast_months`, and otherwise overshoots by less than one step); the
series is never unbounded. -/
theorem infinite_eur_zero_limit_terminates (ops : AnalyticOps)
    (qi di b fm ts : ℚ) (hqi : 0 < qi) (hdi : 0 < di) (hts : 0 < ts)
    (hfm : ts ≤ fm) (hb : 1 ≤ b)
    (hrp : ∀ x y, 0 < x → 0 < ops.rpow x y) :
    (∃ f, generate_forecast ops "harmonic" [("qi", qi), ("di", di)] fm 0 ts =
        .ok f ∧
      f.time = arange ts (fm + ts) ts ∧
      f.time.length = Int.toNat ⌈fm / ts⌉ ∧
      f.time.getLast? = some (ts * ((⌈fm / ts⌉ : ℤ) : ℚ))) ∧
    (∃ f, generate_forecast ops "hyperbolic"
        [("qi", qi), ("di", di), ("b", b)] fm 0 ts = .ok f ∧
      f.time = arange ts (fm + ts) ts ∧
      f.time.length = Int.toNat ⌈fm / ts⌉ ∧
      f.time.getLast? = some (ts * ((⌈fm / ts⌉ : ℤ) : ℚ))) := by
  have hdiv1 : (1 : ℚ) ≤ fm / ts := (one_le_div hts).mpr hfm
  have hint : (1 : ℤ) ≤ ⌈fm / ts⌉ := by
    have hq : (1 : ℚ) ≤ (⌈fm / ts⌉ : ℚ) := le_trans hdiv1 (Int.le_ceil _)
    exact_mod_cast hq
  have hn1 : 1 ≤ Int.toNat ⌈fm / ts⌉ := by omega
  have hmem_pos : ∀ x ∈ arange ts (fm + ts) ts, 0 < x := by
    intro x hx
    rw [arange_forecast fm ts hts] at hx
    obtain ⟨k, -, rfl⟩ := List.mem_map.mp hx
    have hkk : (0 : ℚ) ≤ (k : ℚ) * ts := mul_nonneg (Nat.cast_nonneg k) (le_of_lt hts)
    linarith
  have hlen : (arange ts (fm + ts) ts).length = Int.toNat ⌈fm / ts⌉ := by
    rw [arange_forecast fm ts hts, List.length_map, List.length_range]
  have hlast : (arange ts (fm + ts) ts).getLast? =
      some (ts * ((⌈fm / ts⌉ : ℤ) : ℚ)) := by
    rw [arange_forecast fm ts hts, range_map_getLast _ _ hn1]
    have h0 : (0 : ℤ) ≤ ⌈fm / ts⌉ := by omega
    have hcv : ((Int.toNat ⌈fm / ts⌉ : ℕ) : ℚ) = ((⌈fm / ts⌉ : ℤ) : ℚ) := by
      exact_mod_cast Int.toNat_of_nonneg h0
    have hcast : ((Int.toNat ⌈fm / ts⌉ - 1 : ℕ) : ℚ) =
        ((⌈fm / ts⌉ : ℤ) : ℚ) - 1 := by
      rw [Nat.cast_sub hn1, hcv]
      norm_num
    rw [hcast]
    congr 1
    ring
  have hb0 : ¬ b = 0 := by
    intro hcon
    rw [hcon] at hb
    norm_num at hb
  constructor
  · obtain ⟨f, hf, htime⟩ := generate_forecast_full ops "harmonic"
      [("qi", qi), ("di", di)] fm 0 ts [qi, di] (fun x => harmonic_rate x qi di)
      (by decide) (by decide) rfl (fun x _ => rfl)
      (by
        intro x hx
        show isOkE (harmonic_cumulative ops x qi di) = true
        unfold harmonic_cumulative
        rw [if_neg (ne_of_gt hdi)]
        rfl)
      (by
        intro x hx
        have hxpos := hmem_pos x hx
        have hden : (0 : ℚ) < 1 + di * x := by positivity
        exact le_of_lt (div_pos hqi hden))
    exact ⟨f, hf, htime, htime ▸ hlen, htime ▸ hlast⟩
  · obtain ⟨f, hf, htime⟩ := generate_forecast_full ops "hyperbolic"
      [("qi", qi), ("di", di), ("b", b)] fm 0 ts [qi, di, b]
      (fun x => qi / ops.rpow (1 + b * di * x) (1 / b))
      (by decide) (by decide) rfl
      (fun x _ => by
        show hyperbolic_rate ops x qi di b = _
        unfold hyperbolic_rate
        rw [if_neg hb0])
      (by
        intro x hx
        show isOkE (hyperbolic_cumulative ops x qi di b) = true
        unfold hyperbolic_cumulative hyperbolic_rate
        rw [if_neg hb0]
        dsimp only
        by_cases hb1 : |b - 1| < 1 / 10 ^ 10
        · rw [if_pos hb1, if_neg (ne_of_gt hdi)]
          rfl
        · rw [if_neg hb1]
          rfl)
      (by
        intro x hx
        have hxpos := hmem_pos x hx
        have hbase : (0 : ℚ) < 1 + b * di * x := by
          have : (0 : ℚ) < b := lt_of_lt_of_le one_pos hb
          positivity
        exact le_of_lt (div_pos hqi (hrp _ _ hbase)))
    exact ⟨f, hf, htime, htime ▸ hlen, htime ▸ hlast⟩

/-- C8 witness: the amended theorem evaluated at `qi = di = b = 1`,
`forecast_months = 10`, `time_step = 3`. -/
theorem infinite_eur_zero_limit_terminates_witness :
    ((0 : ℚ) < 1 ∧ (0 : ℚ) < 3 ∧ (3 : ℚ) ≤ 10) ∧
    (∃ f, generate_forecast constOps "harmonic" [("qi", 1), ("di", 1)] 10 0 3 =
        .ok f ∧
      f.time = arange 3 (10 + 3) 3 ∧
      f.time.length = Int.toNat ⌈(10 : ℚ) / 3⌉ ∧
      f.time.getLast? = some (3 * ((⌈(10 : ℚ) / 3⌉ : ℤ) : ℚ))) ∧
    (∃ f, generate_forecast constOps "hyperbolic"
        [("qi", 1), ("di", 1), ("b", 1)] 10 0 3 = .ok f ∧
      f.time = arange 3 (10 + 3) 3 ∧
      f.time.length = Int.toNat ⌈(10 : ℚ) / 3⌉ ∧
      f.time.getLast? = some (3 * ((⌈(10 : ℚ) / 3⌉ : ℤ) : ℚ))) := by
  have h := infinite_eur_zero_limit_terminates constOps 1 1 1 10 3
    (by norm_num) (by norm_num) (by norm_num) (by norm_num) (by norm_num)
    (by
      intro x y hx
      show (0 : ℚ) < 1
      norm_num)
  exact ⟨⟨by norm_num, by norm_num, by norm_num⟩, h.1, h.2⟩
